import Mathlib

/-!
# close-stale-repos-js: the caching gateway `CachedOctokit` and `get_stale_repos`

A shallow embedding of `src/cached-octokit.js` and of `get_stale_repos` in
`src/main.js`.

* JavaScript values are the inductive type `JSValue`. The numbers are the safe
  integers (`Number.isSafeInteger`), which `Number::toString` writes in plain
  decimal; the program itself only builds `100`, `15` and `3600`. Other
  numbers (fractions, `-0`, `NaN`, the infinities, integers beyond `2^53 - 1`)
  are floating point and are not modelled.
* Strings are sequences of Unicode code points; a lone surrogate code unit is
  not modelled.
* `JSON.stringify` follows the ECMAScript abstract operations
  `SerializeJSONProperty`, `SerializeJSONObject`, `SerializeJSONArray` and
  `QuoteJSONString` (no replacer, no indentation). Functions are opaque, so an
  object with a callable `toJSON` is not modelled.
* The store (`file-system-cache`) and the inherited client `Octokit` (its
  constructor, `graphql` and `request`) are external collaborators: their
  behaviour is the parameter `Collaborators`, their state lives in the gateway
  record.
* `async` code is sequential state passing. A promise that the code awaits is
  run to completion on the spot; a promise that the code drops is recorded in
  `pending` and completes only when the environment runs `settle`.
-/

namespace CloseStaleRepos

/-! ## JavaScript values -/

/-- A safe integer: an integer `n` with `|n| ≤ 2^53 - 1`. Every such integer is
a JavaScript number, and no two of them are the same number. -/
structure SafeInteger where
  val : Int
  safe : -9007199254740991 ≤ val ∧ val ≤ 9007199254740991

/-- The number `0`. -/
instance : OfNat SafeInteger 0 := ⟨⟨0, by decide⟩⟩

/-- The number `2`. -/
instance : OfNat SafeInteger 2 := ⟨⟨2, by decide⟩⟩

/-- The number `15`. -/
instance : OfNat SafeInteger 15 := ⟨⟨15, by decide⟩⟩

/-- The number `60`. -/
instance : OfNat SafeInteger 60 := ⟨⟨60, by decide⟩⟩

/-- The number `100`. -/
instance : OfNat SafeInteger 100 := ⟨⟨100, by decide⟩⟩

/-- The number `3600`. -/
instance : OfNat SafeInteger 3600 := ⟨⟨3600, by decide⟩⟩

/-- JavaScript values. A number is a safe integer. An object is the list of its
own enumerable string-keyed properties in enumeration order; a function is
opaque apart from its name. -/
inductive JSValue where
  | undefined
  | null
  | bool (b : Bool)
  | num (n : SafeInteger)
  | str (s : String)
  | arr (xs : List JSValue)
  | obj (ps : List (String × JSValue))
  | func (name : String)

namespace JSValue

/-- The abstract operation `ToBoolean`: what `if (v)` tests. -/
def ToBoolean : JSValue → Bool
  | .undefined => false
  | .null => false
  | .bool b => b
  | .num n => n.val != 0
  | .str s => s.data != []
  | .arr _ => true
  | .obj _ => true
  | .func _ => true

/-- `v === undefined`. -/
def isUndefined : JSValue → Bool
  | .undefined => true
  | _ => false

/-- `v == null`: the value is `undefined` or `null`. -/
def isNullish : JSValue → Bool
  | .undefined => true
  | .null => true
  | _ => false

/-- `a || b`. -/
def or (a b : JSValue) : JSValue := if ToBoolean a then a else b

end JSValue

open JSValue

/-! ## `JSON.stringify` -/

/-- Lower-case hexadecimal digit of a number below 16. -/
def hexDigit (n : Nat) : Char :=
  if n < 10 then Char.ofNat (48 + n) else Char.ofNat (87 + n)

/-- One code point of `QuoteJSONString`: the two-character escapes of the
ECMAScript table, a `\u00xx` escape for the other control characters, and the
code point itself otherwise. -/
def quoteChar (c : Char) : List Char :=
  if c.toNat = 8 then ['\\', 'b']
  else if c.toNat = 9 then ['\\', 't']
  else if c.toNat = 10 then ['\\', 'n']
  else if c.toNat = 12 then ['\\', 'f']
  else if c.toNat = 13 then ['\\', 'r']
  else if c.toNat = 34 then ['\\', '"']
  else if c.toNat = 92 then ['\\', '\\']
  else if c.toNat < 32 then
    ['\\', 'u', '0', '0', hexDigit (c.toNat / 16), hexDigit (c.toNat % 16)]
  else [c]

/-- The body of a quoted string: every code point escaped in turn. -/
def quoteBody : List Char → List Char
  | [] => []
  | c :: cs => quoteChar c ++ quoteBody cs

/-- `QuoteJSONString`. -/
def QuoteJSONString (s : String) : List Char :=
  '"' :: (quoteBody s.data ++ ['"'])

/-- `Number::toString` on a safe integer: its decimal digits, `-` in front of
a negative one. -/
def Number_toString (n : SafeInteger) : List Char :=
  match n.val with
  | .ofNat k => Nat.toDigits 10 k
  | .negSucc k => '-' :: Nat.toDigits 10 (k + 1)

/-- Concatenation of the strings of `partial` with a comma between each
adjacent pair. -/
def joinComma : List (List Char) → List Char
  | [] => []
  | [p] => p
  | p :: q :: r => p ++ ',' :: joinComma (q :: r)

mutual
/-- `SerializeJSONProperty`: `none` is the result `undefined`. -/
def SerializeJSONProperty : JSValue → Option (List Char)
  | .undefined => none
  | .func _ => none
  | .null => some ['n', 'u', 'l', 'l']
  | .bool true => some ['t', 'r', 'u', 'e']
  | .bool false => some ['f', 'a', 'l', 's', 'e']
  | .num n => some (Number_toString n)
  | .str s => some (QuoteJSONString s)
  | .arr xs => some ('[' :: (joinComma (arrayParts xs) ++ [']']))
  | .obj ps => some ('{' :: (joinComma (objectParts ps) ++ ['}']))
/-- The list `partial` of `SerializeJSONArray`: an element that serialises to
`undefined` is written `null`. -/
def arrayParts : List JSValue → List (List Char)
  | [] => []
  | x :: r =>
    (match SerializeJSONProperty x with
      | none => ['n', 'u', 'l', 'l']
      | some s => s) :: arrayParts r
/-- The list `partial` of `SerializeJSONObject`: a property whose value
serialises to `undefined` is left out. -/
def objectParts : List (String × JSValue) → List (List Char)
  | [] => []
  | (k, v) :: r =>
    match SerializeJSONProperty v with
    | none => objectParts r
    | some s => (QuoteJSONString k ++ ':' :: s) :: objectParts r
end

/-- `SerializeJSONObject`, which always yields a string. -/
def SerializeJSONObject (ps : List (String × JSValue)) : String :=
  String.mk ('{' :: (joinComma (objectParts ps) ++ ['}']))

/-- `JSON.stringify(v)`: a string, or `undefined`. -/
def JSON_stringify (v : JSValue) : JSValue :=
  match SerializeJSONProperty v with
  | none => .undefined
  | some s => .str (String.mk s)

/-! ## The collaborators -/

/-- A thrown JavaScript error: its `name` and its `message`. -/
structure JSError where
  name : String
  message : String
  deriving DecidableEq, Repr

/-- What the gateway does to the outside world, in program order. -/
inductive Event where
  /-- A call of `this.cache.get(key)`. -/
  | cache_get (key : String)
  /-- A call of `this.cache.set(key, value, ttl)`. -/
  | cache_set (key : String) (value : JSValue) (ttl : JSValue)
  /-- A call of the live `this.graphql(query, parameters)`. -/
  | graphql (query : String) (parameters : JSValue)
  /-- A call of the live `this.request(route, options)`. -/
  | request (route : String) (options : JSValue)
  /-- A line written with `console.debug`. -/
  | console_debug (line : String)

namespace Event

/-- The event is a live call of the client. -/
def isLive : Event → Bool
  | .graphql _ _ => true
  | .request _ _ => true
  | _ => false

/-- The event is a store write. -/
def isSet : Event → Bool
  | .cache_set _ _ _ => true
  | _ => false

/-- The event is a store read. -/
def isGet : Event → Bool
  | .cache_get _ => true
  | _ => false

end Event

/-- The behaviour of the two external collaborators: the store over its state
`σ` (`get` answers `undefined` for an absent key) and the inherited client
`Octokit` over its state `κ`. Each operation either yields a value or throws.
`octokit_constructor` is the call `super(octokit_options)`: it throws, or it
returns after it has read the options and possibly rewritten properties of the
options object in place, and then yields the options as it left them. -/
structure Collaborators (σ κ : Type) where
  octokit_constructor : JSValue → Except JSError JSValue
  cache_get : σ → String → Except JSError JSValue
  cache_set : σ → String → JSValue → JSValue → Except JSError σ
  graphql : κ → String → JSValue → Except JSError JSValue × κ
  request : κ → String → JSValue → Except JSError JSValue × κ

/-- A store write whose promise the caller did not await. -/
structure PendingSet where
  key : String
  value : JSValue
  ttl : JSValue

/-! ## `CachedOctokit` -/

/-- The gateway object together with the state of its collaborators: the
fields `cache`, `extra_cache_keys`, `hits`, `misses` of the class, the state
`api` of the inherited live client, the store writes still in flight and the
trace of events so far. -/
structure CachedOctokit (σ κ : Type) where
  cache : σ
  api : κ
  extra_cache_keys : JSValue
  hits : Nat
  misses : Nat
  pending : List PendingSet
  trace : List Event

namespace CachedOctokit

variable {σ κ : Type}

/-- The body of the constructor after `super` has returned, on the options as
`super` left them: `extra_cache_keys = JSON.stringify(octokit_options || [])`,
both counters zero. -/
def fresh (cache : σ) (api : κ) (octokit_options : JSValue) : CachedOctokit σ κ :=
  { cache := cache
    api := api
    extra_cache_keys := JSON_stringify (JSValue.or octokit_options (.arr []))
    hits := 0
    misses := 0
    pending := []
    trace := [] }

/-- The constructor `constructor(cache, octokit_options)`: first
`super(octokit_options)`, whose throw ends the construction, then the
assignments of `fresh`. The options object is shared with `super`, so the
fingerprint is taken from the options as `super` left them. -/
def constructor (E : Collaborators σ κ) (cache : σ) (api : κ)
    (octokit_options : JSValue) : Except JSError (CachedOctokit σ κ) :=
  match E.octokit_constructor octokit_options with
  | .error e => .error e
  | .ok rewritten => .ok (fresh cache api rewritten)

/-- Appends an event to the trace. -/
def emit (g : CachedOctokit σ κ) (e : Event) : CachedOctokit σ κ :=
  { g with trace := g.trace ++ [e] }

/-- The default parameter `retention_in_seconds = 3600`, which applies when
the argument is `undefined`. -/
def retention_default (retention_in_seconds : JSValue) : JSValue :=
  if retention_in_seconds.isUndefined then .num 3600 else retention_in_seconds

/-- The key of `graphql_cached`:
`JSON.stringify({query, parameters, extra_cache_keys})`. -/
def graphql_cache_key (query : String) (parameters extra_cache_keys : JSValue) :
    String :=
  SerializeJSONObject
    [("query", .str query), ("parameters", parameters),
      ("extra_cache_keys", extra_cache_keys)]

/-- The key of `request_cached`:
`JSON.stringify({route, options, extra_cache_keys})`. -/
def request_cache_key (route : String) (options extra_cache_keys : JSValue) :
    String :=
  SerializeJSONObject
    [("route", .str route), ("options", options),
      ("extra_cache_keys", extra_cache_keys)]

/-- The method `graphql_cached(query, parameters, retention_in_seconds)`. The
promise of `this.cache.set` is not awaited: the write is left in `pending`. -/
def graphql_cached (E : Collaborators σ κ) (query : String)
    (parameters retention_in_seconds : JSValue) (g : CachedOctokit σ κ) :
    Except JSError JSValue × CachedOctokit σ κ :=
  let ttl := retention_default retention_in_seconds
  let cache_key := graphql_cache_key query parameters g.extra_cache_keys
  let g := g.emit (.cache_get cache_key)
  match E.cache_get g.cache cache_key with
  | .error e => (.error e, g)
  | .ok cached_data =>
    if cached_data.ToBoolean then
      let g := { g with hits := g.hits + 1 }
      (.ok cached_data, g)
    else
      let g := { g with misses := g.misses + 1 }
      let g := g.emit (.graphql query parameters)
      match E.graphql g.api query parameters with
      | (.error e, api) => (.error e, { g with api := api })
      | (.ok live_data, api) =>
        let g := { g with api := api }
        let g := g.emit (.cache_set cache_key live_data ttl)
        let g := { g with pending := g.pending ++ [⟨cache_key, live_data, ttl⟩] }
        (.ok live_data, g)

/-- The text `JSON.stringify(options)` contributes to a template literal. -/
def templateOfStringify (v : JSValue) : String :=
  match SerializeJSONProperty v with
  | none => "undefined"
  | some s => String.mk s

/-- The method `request_cached(route, options, retention_in_seconds)`. The
promise of `this.cache.set` is awaited: the write is complete, or has thrown,
before the method returns. -/
def request_cached (E : Collaborators σ κ) (route : String)
    (options retention_in_seconds : JSValue) (g : CachedOctokit σ κ) :
    Except JSError JSValue × CachedOctokit σ κ :=
  let ttl := retention_default retention_in_seconds
  let cache_key := request_cache_key route options g.extra_cache_keys
  let g := g.emit (.cache_get cache_key)
  match E.cache_get g.cache cache_key with
  | .error e => (.error e, g)
  | .ok cached_data =>
    if cached_data.ToBoolean then
      let g := { g with hits := g.hits + 1 }
      let g := g.emit
        (.console_debug ("cache hit: " ++ route ++ " " ++ templateOfStringify options))
      (.ok cached_data, g)
    else
      let g := { g with misses := g.misses + 1 }
      let g := g.emit (.request route options)
      match E.request g.api route options with
      | (.error e, api) => (.error e, { g with api := api })
      | (.ok live_data, api) =>
        let g := { g with api := api }
        let g := g.emit (.cache_set cache_key live_data ttl)
        match E.cache_set g.cache cache_key live_data ttl with
        | .error e => (.error e, g)
        | .ok cache => (.ok live_data, { g with cache := cache })

/-- The environment completes the store writes in flight, oldest first. A
write that throws has nobody to report to and leaves the store as it was. -/
def settle (E : Collaborators σ κ) (g : CachedOctokit σ κ) : CachedOctokit σ κ :=
  { g with
    cache := g.pending.foldl
      (fun c p =>
        match E.cache_set c p.key p.value p.ttl with
        | .ok c1 => c1
        | .error _ => c) g.cache
    pending := [] }

end CachedOctokit

/-- Number of live calls of the client recorded so far. -/
def CachedOctokit.liveCalls {σ κ : Type} (g : CachedOctokit σ κ) : Nat :=
  (g.trace.filter Event.isLive).length

/-- Number of store writes started so far. -/
def CachedOctokit.storeSets {σ κ : Type} (g : CachedOctokit σ κ) : Nat :=
  (g.trace.filter Event.isSet).length

/-- Number of store reads recorded so far. -/
def CachedOctokit.storeGets {σ κ : Type} (g : CachedOctokit σ κ) : Nat :=
  (g.trace.filter Event.isGet).length

/-! ## Property access, calls and conversions used by `get_stale_repos` -/

/-- The error of reading a property of `undefined` or `null`. The text of the
message is the engine's and is abbreviated here. -/
def typeErrorRead (key : String) : JSError :=
  ⟨"TypeError", "Cannot read properties of undefined or null (reading " ++ key ++ ")"⟩

/-- The first own property called `key`, `undefined` when
there is none. -/
def ownProperty : List (String × JSValue) → String → JSValue
  | [], _ => .undefined
  | (k, v) :: rest, key => if k = key then v else ownProperty rest key

/-- The property read `v.key`, for the property names that the program reads
(none of them is `length`, an index, or a member of `Object.prototype` or
`Array.prototype`): reading from `undefined` or `null` throws; an object gives
its own property; a string has the inherited method `search`; a function has
its `name`; everything else gives `undefined`. -/
def getProp (v : JSValue) (key : String) : Except JSError JSValue :=
  match v with
  | .undefined => .error (typeErrorRead key)
  | .null => .error (typeErrorRead key)
  | .obj ps => .ok (ownProperty ps key)
  | .str _ => .ok (if key = "search" then .func "search" else .undefined)
  | .func name => .ok (if key = "name" then .str name else .undefined)
  | _ => .ok .undefined

/-- Applies `f` to the elements from left to right and stops at the first one
that throws. -/
def mapExcept (f : JSValue → Except JSError JSValue) :
    List JSValue → Except JSError (List JSValue)
  | [] => .ok []
  | x :: rest =>
    match f x with
    | .error e => .error e
    | .ok y =>
      match mapExcept f rest with
      | .error e => .error e
      | .ok ys => .ok (y :: ys)

/-- The method call `receiver.map(f)`. On an array it is `Array.prototype.map`.
On any other value the property `map` is read first; what is found is not a
function for any JSON data, and calling it throws. A function-valued own
property `map` would be called; its behaviour is unknown and is reported as
the error `Unmodelled`. -/
def callMap (receiver : JSValue) (f : JSValue → Except JSError JSValue) :
    Except JSError JSValue :=
  match receiver with
  | .arr xs =>
    match mapExcept f xs with
    | .error e => .error e
    | .ok ys => .ok (.arr ys)
  | _ =>
    match getProp receiver "map" with
    | .error e => .error e
    | .ok (.func _) => .error ⟨"Unmodelled", "call of an unknown function"⟩
    | .ok _ => .error ⟨"TypeError", "map is not a function"⟩

/-- The values a `for (... of v)` loop visits: the elements of an array, the
code points of a string; any other value is not iterable. -/
def iterate (v : JSValue) : Except JSError (List JSValue) :=
  match v with
  | .arr xs => .ok xs
  | .str s => .ok (s.data.map (fun c => .str (String.singleton c)))
  | _ => .error ⟨"TypeError", "value is not iterable"⟩

/-- The object has an own property called `key`. -/
def hasOwnProperty (ps : List (String × JSValue)) (key : String) : Bool :=
  ps.any (fun kv => kv.1 = key)

/-- The value is a function. -/
def isCallable : JSValue → Bool
  | .func _ => true
  | _ => false

/-- `ToString` of an object, which goes through `OrdinaryToPrimitive` with
the hint `string`. Without an own property `toString` the inherited
`Object.prototype.toString` answers `[object Object]`. An own `toString` that
is data is skipped; then `valueOf` is tried, and neither an own `valueOf` that
is data nor the inherited one yields a primitive, so the conversion throws. An
own `toString` or `valueOf` that is a function would be called; its behaviour
is unknown and is reported as the error `Unmodelled`. -/
def objectToString (ps : List (String × JSValue)) : Except JSError String :=
  if !hasOwnProperty ps "toString" then .ok "[object Object]"
  else if isCallable (ownProperty ps "toString") then
    .error ⟨"Unmodelled", "call of an unknown function"⟩
  else if hasOwnProperty ps "valueOf" && isCallable (ownProperty ps "valueOf") then
    .error ⟨"Unmodelled", "call of an unknown function"⟩
  else .error ⟨"TypeError", "Cannot convert object to primitive value"⟩

mutual
/-- The abstract operation `ToString`, as a template literal applies it. An
array is joined with commas; an object is converted by `objectToString`. The
source text of a function is not known and is abbreviated. -/
def ToString : JSValue → Except JSError String
  | .undefined => .ok "undefined"
  | .null => .ok "null"
  | .bool true => .ok "true"
  | .bool false => .ok "false"
  | .num n => .ok (String.mk (Number_toString n))
  | .str s => .ok s
  | .func name => .ok ("function " ++ name ++ "()")
  | .arr xs => joinElements xs
  | .obj ps => objectToString ps
/-- The text of `Array.prototype.join` with the separator `,`: `undefined` and
`null` elements are the empty string. -/
def joinElements : List JSValue → Except JSError String
  | [] => .ok ""
  | x :: rest =>
    match (match x with
      | .undefined => Except.ok ""
      | .null => Except.ok ""
      | y => ToString y) with
    | .error e => .error e
    | .ok a =>
      match rest with
      | [] => .ok a
      | _ :: _ =>
        match joinElements rest with
        | .error e => .error e
        | .ok b => .ok (a ++ "," ++ b)
end

/-- The check `assert.strictEqual(actual, false, message)`. -/
def assert_strictEqual_false (actual : JSValue) (message : String) :
    Except JSError Unit :=
  match actual with
  | .bool false => .ok ()
  | _ => .error ⟨"AssertionError", message⟩

/-! ## `get_stale_repos` -/

/-- A character of the class `[a-zA-Z0-9-]`. -/
def isOrgChar (c : Char) : Bool :=
  ('a' ≤ c && c ≤ 'z') || ('A' ≤ c && c ≤ 'Z') || ('0' ≤ c && c ≤ '9') || c = '-'

/-- The test `org.match(/^[a-zA-Z0-9-]+$/)`. -/
def matchesOrgName (org : String) : Bool :=
  org.data != [] && org.data.all isOrgChar

/-- A character of the class `\d`. -/
def isAsciiDigit (c : Char) : Bool := '0' ≤ c && c ≤ '9'

/-- The test `stale_date.match(/^\d{4}-\d{2}-\d{2}$/)`. -/
def matchesStaleDate (stale_date : String) : Bool :=
  match stale_date.data with
  | [y1, y2, y3, y4, s1, m1, m2, s2, d1, d2] =>
    isAsciiDigit y1 && isAsciiDigit y2 && isAsciiDigit y3 && isAsciiDigit y4 &&
      s1 = '-' && isAsciiDigit m1 && isAsciiDigit m2 && s2 = '-' &&
      isAsciiDigit d1 && isAsciiDigit d2
  | _ => false

/-- The text of the GraphQL query of `get_stale_repos`. -/
def graphql_query : String :=
  String.join
    ["\n",
      "  query stale_repos($search_query: String!, $limit: Int!) \x7b\n",
      "    search(\n",
      "      query: $search_query\n",
      "      type: REPOSITORY\n",
      "      first: $limit\n",
      "    ) \x7b\n",
      "      edges \x7b\n",
      "        node \x7b\n",
      "          ... on Repository \x7b\n",
      "            name\n",
      "            description\n",
      "            updatedAt\n",
      "            pushedAt\n",
      "            latestRelease \x7b\n",
      "              createdAt\n",
      "            \x7d\n",
      "            isArchived\n",
      "            isDisabled\n",
      "            defaultBranchRef \x7b\n",
      "              target \x7b\n",
      "                ... on Commit \x7b\n",
      "                  history(first: 15) \x7b\n",
      "                    nodes \x7b\n",
      "                      ... on Commit \x7b\n",
      "                        committedDate\n",
      "                        author \x7b\n",
      "                          name\n",
      "                          email\n",
      "                        \x7d\n",
      "                      \x7d\n",
      "                    \x7d\n",
      "                  \x7d\n",
      "                \x7d\n",
      "              \x7d\n",
      "            \x7d\n",
      "            collaborators(affiliation: DIRECT) \x7b\n",
      "              edges \x7b\n",
      "                permissionSources \x7b\n",
      "                  roleName\n",
      "                \x7d\n",
      "                permission\n",
      "                node \x7b\n",
      "                  login\n",
      "                  name\n",
      "                  email\n",
      "                \x7d\n",
      "              \x7d\n",
      "            \x7d\n",
      "          \x7d\n",
      "        \x7d\n",
      "      \x7d\n",
      "    \x7d\n",
      "  \x7d\n",
      "  "]

/-- One entry of `stale_repo.admins`, built from a collaborator edge. -/
def admin_of_collaborator (collaborator : JSValue) : Except JSError JSValue := do
  let node ← getProp collaborator "node"
  let login ← getProp node "login"
  let node ← getProp collaborator "node"
  let name ← getProp node "name"
  let node ← getProp collaborator "node"
  let email ← getProp node "email"
  let permission ← getProp collaborator "permission"
  pure (.obj [("login", login), ("name", name), ("email", email),
    ("permission", permission)])

/-- The optional chain `latestRelease?.createdAt`, given the value of
`repository.latestRelease`. -/
def latestRelease_createdAt (release : JSValue) : Except JSError JSValue :=
  if release.isNullish then .ok .undefined else getProp release "createdAt"

/-- The optional chain
`defaultBranchRef?.target.history.nodes.map(commit => commit.author)`, given
the value of `repository.defaultBranchRef`: a nullish value ends the whole
chain with `undefined`. -/
def lastCommitters_of (defaultBranchRef : JSValue) : Except JSError JSValue :=
  if defaultBranchRef.isNullish then .ok .undefined
  else do
    let target ← getProp defaultBranchRef "target"
    let history ← getProp target "history"
    let nodes ← getProp history "nodes"
    callMap nodes (fun commit => getProp commit "author")

/-- The body of the loop over the repositories: the two assertions, then the
record `stale_repo` with its `admins` filled in. -/
def stale_repo_of (repository : JSValue) : Except JSError JSValue := do
  let isArchived ← getProp repository "isArchived"
  let name ← getProp repository "name"
  let text ← ToString name
  assert_strictEqual_false isArchived ("Repository " ++ text ++ " is archived")
  let isDisabled ← getProp repository "isDisabled"
  let name ← getProp repository "name"
  let text ← ToString name
  assert_strictEqual_false isDisabled ("Repository " ++ text ++ " is disabled")
  let name ← getProp repository "name"
  let description ← getProp repository "description"
  let updatedAt ← getProp repository "updatedAt"
  let pushedAt ← getProp repository "pushedAt"
  let release ← getProp repository "latestRelease"
  let latestRelease ← latestRelease_createdAt release
  let defaultBranchRef ← getProp repository "defaultBranchRef"
  let lastCommitters ← lastCommitters_of defaultBranchRef
  let collaborators ← getProp repository "collaborators"
  let edges ← getProp collaborators "edges"
  let items ← iterate edges
  let admins ← mapExcept admin_of_collaborator items
  pure (.obj [("name", name), ("description", description), ("updatedAt", updatedAt),
    ("pushedAt", pushedAt), ("latestRelease", latestRelease),
    ("lastCommitters", lastCommitters), ("admins", .arr admins)])

/-- The loop `for (const repository of repositories)`: each turn builds
`stale_repo`; nothing is ever pushed onto `stale_repos`. -/
def stale_repos_loop :
    List JSValue → List JSValue → Except JSError (List JSValue)
  | [], stale_repos => .ok stale_repos
  | repository :: rest, stale_repos =>
    match stale_repo_of repository with
    | .error e => .error e
    | .ok _ => stale_repos_loop rest stale_repos

/-- What `get_stale_repos` does with the answer `graph` of the query. -/
def stale_repos_of_graph (graph : JSValue) : Except JSError JSValue := do
  let search ← getProp graph "search"
  let edges ← getProp search "edges"
  let repositories ← callMap edges (fun edge => getProp edge "node")
  let repositories ← iterate repositories
  let stale_repos ← stale_repos_loop repositories []
  pure (.arr stale_repos)

/-- The parameters of the query: `{search_query, limit: 15}` with
`search_query` the text `org:${org} pushed:<${stale_date}`. -/
def stale_repos_parameters (stale_date org : String) : JSValue :=
  .obj [("search_query", .str ("org:" ++ org ++ " pushed:<" ++ stale_date)),
    ("limit", .num 15)]

/-- The function `get_stale_repos(octokit, org)`. The date `stale_date` is what
`one_year_ago()` returns, which depends on the clock. -/
def get_stale_repos {σ κ : Type} (E : Collaborators σ κ) (stale_date org : String)
    (octokit : CachedOctokit σ κ) : Except JSError JSValue × CachedOctokit σ κ :=
  if !matchesOrgName org then
    (.error ⟨"Error", "Invalid org name: " ++ org⟩, octokit)
  else if !matchesStaleDate stale_date then
    (.error ⟨"Error", "Invalid stale date: " ++ stale_date⟩, octokit)
  else
    match CachedOctokit.graphql_cached E graphql_query
        (stale_repos_parameters stale_date org) .undefined octokit with
    | (.error e, octokit) => (.error e, octokit)
    | (.ok graph, octokit) =>
      match stale_repos_of_graph graph with
      | .error e => (.error e, octokit)
      | .ok stale_repos => (.ok stale_repos, octokit)

/-! ## The shape of an answer of the query -/

/-- The value is an object. -/
def isObject : JSValue → Bool
  | .obj _ => true
  | _ => false

/-- The value is a string. -/
def isString : JSValue → Bool
  | .str _ => true
  | _ => false

/-- The value is the boolean `false`. -/
def isFalse : JSValue → Bool
  | .bool false => true
  | _ => false

/-- The own property `key` of an object, `undefined` for any other value. -/
def propOf (v : JSValue) (key : String) : JSValue :=
  match v with
  | .obj ps => ownProperty ps key
  | _ => .undefined

/-- The value is an array whose elements all satisfy `p`. -/
def isArrayOf (p : JSValue → Bool) : JSValue → Bool
  | .arr xs => xs.all p
  | _ => false

/-- A collaborator edge as the query selects it: an object with an object
`node`. -/
def wellFormedCollaborator (collaborator : JSValue) : Bool :=
  isObject collaborator && isObject (propOf collaborator "node")

/-- A repository node as the query selects it, neither archived nor disabled:
`name` is a string, `defaultBranchRef` is `null` or leads to an array of commit
objects, `collaborators.edges` is an array of collaborator edges. -/
def wellFormedRepository (repository : JSValue) : Bool :=
  isObject repository &&
  isFalse (propOf repository "isArchived") &&
  isFalse (propOf repository "isDisabled") &&
  isString (propOf repository "name") &&
  ((propOf repository "defaultBranchRef").isNullish ||
    (isObject (propOf repository "defaultBranchRef") &&
      isObject (propOf (propOf repository "defaultBranchRef") "target") &&
      isObject (propOf (propOf (propOf repository "defaultBranchRef") "target") "history") &&
      isArrayOf isObject
        (propOf (propOf (propOf (propOf repository "defaultBranchRef") "target")
          "history") "nodes"))) &&
  isObject (propOf repository "collaborators") &&
  isArrayOf wellFormedCollaborator (propOf (propOf repository "collaborators") "edges")

/-- An answer of the query: `{search: {edges: [{node: repository}, ...]}}` with
every repository well formed. -/
def wellFormedGraph (graph : JSValue) : Bool :=
  isObject graph &&
  isObject (propOf graph "search") &&
  isArrayOf (fun edge => isObject edge && wellFormedRepository (propOf edge "node"))
    (propOf (propOf graph "search") "edges")

/-- A repository of the test graph. -/
def exampleRepository (name : String) : JSValue :=
  .obj [("name", .str name), ("description", .null),
    ("updatedAt", .str "2020-01-01T00:00:00Z"),
    ("pushedAt", .str "2020-01-01T00:00:00Z"), ("latestRelease", .null),
    ("isArchived", .bool false), ("isDisabled", .bool false),
    ("defaultBranchRef", .obj [("target", .obj [("history", .obj [("nodes",
      .arr [.obj [("committedDate", .str "2019-12-31T00:00:00Z"),
        ("author", .obj [("name", .str "A"), ("email", .str "a@example.org")])]])])])]),
    ("collaborators", .obj [("edges", .arr [.obj [("permission", .str "ADMIN"),
      ("node", .obj [("login", .str "alice"), ("name", .null),
        ("email", .str "")])]])])]

/-- An answer of the query with two stale repositories. -/
def exampleGraph : JSValue :=
  .obj [("search", .obj [("edges",
    .arr [.obj [("node", exampleRepository "alpha")],
      .obj [("node", exampleRepository "beta")]])])]

/-! ## A concrete store and a concrete client -/

/-- An in-memory store: the entries written so far, newest first, and an
optional fault that makes every operation throw. -/
structure MemoryStore where
  entries : List (String × JSValue × JSValue)
  fault : Option JSError

/-- The newest value written under `key`, `undefined` when there is none. -/
def MemoryStore.lookup : List (String × JSValue × JSValue) → String → JSValue
  | [], _ => .undefined
  | (k, v, _) :: rest, key => if k = key then v else MemoryStore.lookup rest key

/-- A live client that answers from a script, one response per call, and
throws once the script is used up. -/
def scriptedLive (script : List (Except JSError JSValue)) :
    Except JSError JSValue × List (Except JSError JSValue) :=
  match script with
  | [] => (.error ⟨"HttpError", "no response"⟩, [])
  | r :: rest => (r, rest)

/-- The object with the own property `key` set to `value`: an existing
property keeps its place, a new one goes to the end. -/
def setOwnProperty :
    List (String × JSValue) → String → JSValue → List (String × JSValue)
  | [], key, value => [(key, value)]
  | (k, v) :: rest, key, value =>
    if k = key then (k, value) :: rest else (k, v) :: setOwnProperty rest key value

/-- One step of `createLogger`:
`if (typeof logger[key] !== "function") logger[key] = fallback`. -/
def ensureFunction (logger : List (String × JSValue)) (key : String)
    (fallback : JSValue) : List (String × JSValue) :=
  if isCallable (ownProperty logger key) then logger
  else setOwnProperty logger key fallback

/-- The logger object after `createLogger` of `@octokit/core` has run on it:
`debug`, `info`, `warn` and `error` are functions, the caller's own where they
were functions already. -/
def createLogger (logger : List (String × JSValue)) : List (String × JSValue) :=
  ensureFunction
    (ensureFunction
      (ensureFunction (ensureFunction logger "debug" (.func "noop")) "info"
        (.func "noop"))
      "warn" (.func "bound warn"))
    "error" (.func "bound error")

/-- What the constructor of `Octokit` does with the options `log` and `auth`
(`@octokit/core`; its other options are not modelled). A value that is not an
object is read as no options. `createLogger(options.log)` rewrites a logger
object in place, leaves an absent logger alone and throws on `null` and on a
primitive. Then a truthy `authStrategy` is called, which is not modelled, and a
truthy `auth` that is not a string is refused by `createTokenAuth`. -/
def octokitConstructor (options : JSValue) : Except JSError JSValue :=
  match options with
  | .obj ps =>
    match (match ownProperty ps "log" with
      | .undefined => Except.ok options
      | .obj logger => Except.ok (.obj (setOwnProperty ps "log" (.obj (createLogger logger))))
      | .arr _ => Except.ok options
      | .func _ => Except.ok options
      | .null => Except.error
          (JSError.mk "TypeError" "Cannot read properties of null (reading debug)")
      | _ => Except.error
          (JSError.mk "TypeError" "Cannot create property debug on the logger")) with
    | .error e => .error e
    | .ok rewritten =>
      if (ownProperty ps "authStrategy").ToBoolean then
        if isCallable (ownProperty ps "authStrategy") then
          .error ⟨"Unmodelled", "call of an unknown function"⟩
        else .error ⟨"TypeError", "authStrategy is not a function"⟩
      else if (ownProperty ps "auth").ToBoolean && !isString (ownProperty ps "auth") then
        .error ⟨"Error",
          "[@octokit/auth-token] Token passed to createTokenAuth is not a string"⟩
      else .ok rewritten
  | _ => .ok options

/-- The in-memory store, the scripted client and the constructor of `Octokit` as
collaborators. -/
def memoryCollaborators :
    Collaborators MemoryStore (List (Except JSError JSValue)) where
  octokit_constructor := octokitConstructor
  cache_get := fun s key =>
    match s.fault with
    | some e => .error e
    | none => .ok (MemoryStore.lookup s.entries key)
  cache_set := fun s key value ttl =>
    match s.fault with
    | some e => .error e
    | none => .ok { s with entries := (key, value, ttl) :: s.entries }
  graphql := fun script _ _ => scriptedLive script
  request := fun script _ _ => scriptedLive script

/-! ## Sequences of cached calls -/

/-- One cached call with its arguments. -/
inductive Call where
  | graphql_cached (query : String) (parameters retention_in_seconds : JSValue)
  | request_cached (route : String) (options retention_in_seconds : JSValue)

namespace Call

variable {σ κ : Type}

/-- Runs the call on the gateway. -/
def run (E : Collaborators σ κ) (c : Call) (g : CachedOctokit σ κ) :
    Except JSError JSValue × CachedOctokit σ κ :=
  match c with
  | .graphql_cached query parameters ttl =>
    CachedOctokit.graphql_cached E query parameters ttl g
  | .request_cached route options ttl =>
    CachedOctokit.request_cached E route options ttl g

/-- What the store answers for the key of the call, in the state `g`. -/
def lookup (E : Collaborators σ κ) (c : Call) (g : CachedOctokit σ κ) :
    Except JSError JSValue :=
  match c with
  | .graphql_cached query parameters _ =>
    E.cache_get g.cache
      (CachedOctokit.graphql_cache_key query parameters g.extra_cache_keys)
  | .request_cached route options _ =>
    E.cache_get g.cache
      (CachedOctokit.request_cache_key route options g.extra_cache_keys)

end Call

/-- The store answered with an entry: a value other than `undefined`. -/
def entryFound : Except JSError JSValue → Bool
  | .ok v => !v.isUndefined
  | .error _ => false

/-- The store answered that there is no entry. -/
def entryAbsent : Except JSError JSValue → Bool
  | .ok v => v.isUndefined
  | .error _ => false

/-- The store answered with a truthy value. -/
def answerTruthy : Except JSError JSValue → Bool
  | .ok v => v.ToBoolean
  | .error _ => false

/-- The store answered with a falsy value, `undefined` included. -/
def answerFalsy : Except JSError JSValue → Bool
  | .ok v => !v.ToBoolean
  | .error _ => false

/-- The store answered without throwing. -/
def answered : Except JSError JSValue → Bool
  | .ok _ => true
  | .error _ => false

/-- The gateway after the calls have run one after the other. -/
def run_calls {σ κ : Type} (E : Collaborators σ κ) :
    List Call → CachedOctokit σ κ → CachedOctokit σ κ
  | [], g => g
  | c :: cs, g => run_calls E cs (c.run E g).2

/-- Number of calls of the sequence whose store lookup satisfies `P`, each
lookup taken in the state its call starts in. -/
def countLookups {σ κ : Type} (P : Except JSError JSValue → Bool)
    (E : Collaborators σ κ) : List Call → CachedOctokit σ κ → Nat
  | [], _ => 0
  | c :: cs, g =>
    (if P (c.lookup E g) then 1 else 0) + countLookups P E cs (c.run E g).2

/-- Every call of the sequence returns normally. -/
def allComplete {σ κ : Type} (E : Collaborators σ κ) :
    List Call → CachedOctokit σ κ → Bool
  | [], _ => true
  | c :: cs, g =>
    (match (c.run E g).1 with
      | .ok _ => true
      | .error _ => false) && allComplete E cs (c.run E g).2

/-! ## Scenarios -/

/-- A store that already holds `value` under the key of
`request_cached("GET /user", {})` for an absent configuration, and a client
whose next response is `{data: []}`. -/
def gatewayWithStored (value : JSValue) :
    CachedOctokit MemoryStore (List (Except JSError JSValue)) :=
  CachedOctokit.fresh
    ⟨[(CachedOctokit.request_cache_key "GET /user" (.obj [])
        (JSON_stringify (.arr [])), value, .num 3600)], none⟩
    [.ok (.obj [("data", .arr [])])] .undefined


/-- The gateway of the scenario of the specification: configuration
`{auth: "tok1"}`, an empty store, a client that answers `response` twice. -/
def scenarioGateway (response : JSValue) :
    CachedOctokit MemoryStore (List (Except JSError JSValue)) :=
  CachedOctokit.fresh ⟨[], none⟩ [.ok response, .ok response]
    (.obj [("auth", .str "tok1")])

/-- The gateway for an absent configuration, an empty store and a client that
answers `{data: []}` once. -/
def absentConfigurationGateway :
    CachedOctokit MemoryStore (List (Except JSError JSValue)) :=
  CachedOctokit.fresh ⟨[], none⟩ [.ok (.obj [("data", .arr [])])] .undefined

/-- The options `{role: "admin", per_page: 100}` of the scenario. -/
def scenarioOptions : JSValue :=
  .obj [("role", .str "admin"), ("per_page", .num 100)]

/-- A response of the live client: `{data: []}`. -/
def scenarioResponse : JSValue := .obj [("data", .arr [])]

/-! ## Reading a serialisation back -/

/-- The number written by a list of decimal digits. -/
def decimalValue (ds : List Char) : Nat :=
  ds.foldl (fun acc c => 10 * acc + (c.toNat - 48)) 0

/-- The value of a lower-case hexadecimal digit. -/
def hexValue (c : Char) : Nat :=
  if c.toNat < 58 then c.toNat - 48 else c.toNat - 87

/-- Reads one escaped code point off the front of a quoted string body. -/
def unquoteChar : List Char → Option (Char × List Char)
  | [] => none
  | c :: t =>
    if c = '\\' then
      match t with
      | [] => none
      | e :: u =>
        if e = 'b' then some (Char.ofNat 8, u)
        else if e = 't' then some (Char.ofNat 9, u)
        else if e = 'n' then some (Char.ofNat 10, u)
        else if e = 'f' then some (Char.ofNat 12, u)
        else if e = 'r' then some (Char.ofNat 13, u)
        else if e = 'u' then
          match u with
          | _ :: _ :: a :: b :: w => some (Char.ofNat (hexValue a * 16 + hexValue b), w)
          | _ => none
        else some (e, u)
    else some (c, t)

/-- The class of the first character of a serialisation: 0 `null`, 1 a
boolean, 2 a number, 3 a string, 4 an array, 5 an object, 6 anything else. -/
def charTag (c : Char) : Nat :=
  if c = 'n' then 0
  else if c = 't' ∨ c = 'f' then 1
  else if c = '-' ∨ c.isDigit = true then 2
  else if c = '"' then 3
  else if c = '[' then 4
  else if c = '{' then 5
  else 6

/-- The class of a value, numbered as in `charTag`; 6 for the values that
`JSON.stringify` does not write. -/
def JSValue.tag : JSValue → Nat
  | .null => 0
  | .bool _ => 1
  | .num _ => 2
  | .str _ => 3
  | .arr _ => 4
  | .obj _ => 5
  | .undefined => 6
  | .func _ => 6

mutual
/-- The value is JSON data: no `undefined` and no function anywhere in it. -/
def JSValue.isJSON : JSValue → Bool
  | .undefined => false
  | .func _ => false
  | .null => true
  | .bool _ => true
  | .num _ => true
  | .str _ => true
  | .arr xs => JSValue.allJSON xs
  | .obj ps => JSValue.allJSONProps ps
/-- Every element of the list is JSON data. -/
def JSValue.allJSON : List JSValue → Bool
  | [] => true
  | x :: r => JSValue.isJSON x && JSValue.allJSON r
/-- Every property value of the list is JSON data. -/
def JSValue.allJSONProps : List (String × JSValue) → Bool
  | [] => true
  | (_, v) :: r => JSValue.isJSON v && JSValue.allJSONProps r
end

/-- The text does not begin with a decimal digit. -/
def NoDigitHead (r : List Char) : Prop := ∀ c t, r = c :: t → c.isDigit = false

/-! ## The four paths of each cached method -/

namespace CachedOctokit

variable {σ κ : Type}

/-- `graphql_cached` when the store read throws. -/
theorem graphql_cached_of_get_error (E : Collaborators σ κ) (query : String)
    (parameters ttl : JSValue) (g : CachedOctokit σ κ) (e : JSError)
    (hget : E.cache_get g.cache
      (graphql_cache_key query parameters g.extra_cache_keys) = .error e) :
    graphql_cached E query parameters ttl g =
      (.error e,
        { g with trace := g.trace ++
            [.cache_get (graphql_cache_key query parameters g.extra_cache_keys)] }) := by
  simp [graphql_cached, emit, hget]

/-- `graphql_cached` when the store read yields a truthy value. -/
theorem graphql_cached_of_hit (E : Collaborators σ κ) (query : String)
    (parameters ttl : JSValue) (g : CachedOctokit σ κ) (v : JSValue)
    (hget : E.cache_get g.cache
      (graphql_cache_key query parameters g.extra_cache_keys) = .ok v)
    (hv : v.ToBoolean = true) :
    graphql_cached E query parameters ttl g =
      (.ok v,
        { g with
          hits := g.hits + 1
          trace := g.trace ++
            [.cache_get (graphql_cache_key query parameters g.extra_cache_keys)] }) := by
  simp [graphql_cached, emit, hget, hv]

/-- `graphql_cached` when the store read yields a falsy value and the live
query throws. -/
theorem graphql_cached_of_live_error (E : Collaborators σ κ) (query : String)
    (parameters ttl : JSValue) (g : CachedOctokit σ κ) (v : JSValue) (e : JSError)
    (api : κ)
    (hget : E.cache_get g.cache
      (graphql_cache_key query parameters g.extra_cache_keys) = .ok v)
    (hv : v.ToBoolean = false)
    (hlive : E.graphql g.api query parameters = (.error e, api)) :
    graphql_cached E query parameters ttl g =
      (.error e,
        { g with
          api := api
          misses := g.misses + 1
          trace := g.trace ++
            [.cache_get (graphql_cache_key query parameters g.extra_cache_keys),
              .graphql query parameters] }) := by
  simp [graphql_cached, emit, hget, hv, hlive]

/-- `graphql_cached` when the store read yields a falsy value and the live
query succeeds: the write is started and left in flight. -/
theorem graphql_cached_of_live_ok (E : Collaborators σ κ) (query : String)
    (parameters ttl : JSValue) (g : CachedOctokit σ κ) (v live_data : JSValue)
    (api : κ)
    (hget : E.cache_get g.cache
      (graphql_cache_key query parameters g.extra_cache_keys) = .ok v)
    (hv : v.ToBoolean = false)
    (hlive : E.graphql g.api query parameters = (.ok live_data, api)) :
    graphql_cached E query parameters ttl g =
      (.ok live_data,
        { g with
          api := api
          misses := g.misses + 1
          pending := g.pending ++
            [⟨graphql_cache_key query parameters g.extra_cache_keys, live_data,
              retention_default ttl⟩]
          trace := g.trace ++
            [.cache_get (graphql_cache_key query parameters g.extra_cache_keys),
              .graphql query parameters,
              .cache_set (graphql_cache_key query parameters g.extra_cache_keys)
                live_data (retention_default ttl)] }) := by
  simp [graphql_cached, emit, hget, hv, hlive]

/-- `request_cached` when the store read throws. -/
theorem request_cached_of_get_error (E : Collaborators σ κ) (route : String)
    (options ttl : JSValue) (g : CachedOctokit σ κ) (e : JSError)
    (hget : E.cache_get g.cache
      (request_cache_key route options g.extra_cache_keys) = .error e) :
    request_cached E route options ttl g =
      (.error e,
        { g with trace := g.trace ++
            [.cache_get (request_cache_key route options g.extra_cache_keys)] }) := by
  simp [request_cached, emit, hget]

/-- `request_cached` when the store read yields a truthy value. -/
theorem request_cached_of_hit (E : Collaborators σ κ) (route : String)
    (options ttl : JSValue) (g : CachedOctokit σ κ) (v : JSValue)
    (hget : E.cache_get g.cache
      (request_cache_key route options g.extra_cache_keys) = .ok v)
    (hv : v.ToBoolean = true) :
    request_cached E route options ttl g =
      (.ok v,
        { g with
          hits := g.hits + 1
          trace := g.trace ++
            [.cache_get (request_cache_key route options g.extra_cache_keys),
              .console_debug
                ("cache hit: " ++ route ++ " " ++ templateOfStringify options)] }) := by
  simp [request_cached, emit, hget, hv]

/-- `request_cached` when the store read yields a falsy value and the live
request throws. -/
theorem request_cached_of_live_error (E : Collaborators σ κ) (route : String)
    (options ttl : JSValue) (g : CachedOctokit σ κ) (v : JSValue) (e : JSError)
    (api : κ)
    (hget : E.cache_get g.cache
      (request_cache_key route options g.extra_cache_keys) = .ok v)
    (hv : v.ToBoolean = false)
    (hlive : E.request g.api route options = (.error e, api)) :
    request_cached E route options ttl g =
      (.error e,
        { g with
          api := api
          misses := g.misses + 1
          trace := g.trace ++
            [.cache_get (request_cache_key route options g.extra_cache_keys),
              .request route options] }) := by
  simp [request_cached, emit, hget, hv, hlive]

/-- `request_cached` when the store read yields a falsy value, the live request
succeeds and the awaited store write succeeds. -/
theorem request_cached_of_live_ok (E : Collaborators σ κ) (route : String)
    (options ttl : JSValue) (g : CachedOctokit σ κ) (v live_data : JSValue)
    (api : κ) (cache : σ)
    (hget : E.cache_get g.cache
      (request_cache_key route options g.extra_cache_keys) = .ok v)
    (hv : v.ToBoolean = false)
    (hlive : E.request g.api route options = (.ok live_data, api))
    (hset : E.cache_set g.cache (request_cache_key route options g.extra_cache_keys)
      live_data (retention_default ttl) = .ok cache) :
    request_cached E route options ttl g =
      (.ok live_data,
        { g with
          cache := cache
          api := api
          misses := g.misses + 1
          trace := g.trace ++
            [.cache_get (request_cache_key route options g.extra_cache_keys),
              .request route options,
              .cache_set (request_cache_key route options g.extra_cache_keys)
                live_data (retention_default ttl)] }) := by
  simp [request_cached, emit, hget, hv, hlive, hset]

/-- `request_cached` when the store read yields a falsy value, the live request
succeeds and the awaited store write throws. -/
theorem request_cached_of_set_error (E : Collaborators σ κ) (route : String)
    (options ttl : JSValue) (g : CachedOctokit σ κ) (v live_data : JSValue)
    (api : κ) (e : JSError)
    (hget : E.cache_get g.cache
      (request_cache_key route options g.extra_cache_keys) = .ok v)
    (hv : v.ToBoolean = false)
    (hlive : E.request g.api route options = (.ok live_data, api))
    (hset : E.cache_set g.cache (request_cache_key route options g.extra_cache_keys)
      live_data (retention_default ttl) = .error e) :
    request_cached E route options ttl g =
      (.error e,
        { g with
          api := api
          misses := g.misses + 1
          trace := g.trace ++
            [.cache_get (request_cache_key route options g.extra_cache_keys),
              .request route options,
              .cache_set (request_cache_key route options g.extra_cache_keys)
                live_data (retention_default ttl)] }) := by
  simp [request_cached, emit, hget, hv, hlive, hset]

end CachedOctokit

/-! ## A miss always attempts the live call -/

namespace CachedOctokit

variable {σ κ : Type}

/-- On a miss `graphql_cached` reads the store once and then calls the live
query, whatever happens next. -/
theorem graphql_cached_miss_attempts (E : Collaborators σ κ) (query : String)
    (parameters ttl : JSValue) (g : CachedOctokit σ κ) (v : JSValue)
    (hget : E.cache_get g.cache
      (graphql_cache_key query parameters g.extra_cache_keys) = .ok v)
    (hv : v.ToBoolean = false) :
    ∃ rest, (graphql_cached E query parameters ttl g).2.trace =
      g.trace ++ [.cache_get (graphql_cache_key query parameters g.extra_cache_keys),
        .graphql query parameters] ++ rest := by
  rcases hlive : E.graphql g.api query parameters with ⟨r, api⟩
  cases r with
  | error e =>
    rw [graphql_cached_of_live_error E query parameters ttl g v e api hget hv hlive]
    exact ⟨[], by simp⟩
  | ok d =>
    rw [graphql_cached_of_live_ok E query parameters ttl g v d api hget hv hlive]
    exact ⟨[.cache_set (graphql_cache_key query parameters g.extra_cache_keys) d
      (retention_default ttl)], by simp⟩

/-- On a miss `request_cached` reads the store once and then calls the live
request, whatever happens next. -/
theorem request_cached_miss_attempts (E : Collaborators σ κ) (route : String)
    (options ttl : JSValue) (g : CachedOctokit σ κ) (v : JSValue)
    (hget : E.cache_get g.cache
      (request_cache_key route options g.extra_cache_keys) = .ok v)
    (hv : v.ToBoolean = false) :
    ∃ rest, (request_cached E route options ttl g).2.trace =
      g.trace ++ [.cache_get (request_cache_key route options g.extra_cache_keys),
        .request route options] ++ rest := by
  rcases hlive : E.request g.api route options with ⟨r, api⟩
  cases r with
  | error e =>
    rw [request_cached_of_live_error E route options ttl g v e api hget hv hlive]
    exact ⟨[], by simp⟩
  | ok d =>
    rcases hset : E.cache_set g.cache
        (request_cache_key route options g.extra_cache_keys) d
        (retention_default ttl) with e3 | c
    · rw [request_cached_of_set_error E route options ttl g v d api e3 hget hv
        hlive hset]
      exact ⟨[.cache_set (request_cache_key route options g.extra_cache_keys) d
        (retention_default ttl)], by simp⟩
    · rw [request_cached_of_live_ok E route options ttl g v d api c hget hv
        hlive hset]
      exact ⟨[.cache_set (request_cache_key route options g.extra_cache_keys) d
        (retention_default ttl)], by simp⟩

end CachedOctokit

/-! ## Failures of the collaborators -/

namespace CachedOctokit

variable {σ κ : Type}

/-- C7 (store-read failure propagation): when `this.cache.get` throws `e`,
`graphql_cached` and `request_cached` both fail with `e`; the only thing that
happened is the one store read: no live call, no store write, no second read,
counters and store untouched. -/
theorem store_read_failure_propagates (E : Collaborators σ κ)
    (g : CachedOctokit σ κ) (e : JSError) :
    (∀ query parameters ttl,
      E.cache_get g.cache (graphql_cache_key query parameters g.extra_cache_keys)
          = .error e →
        (graphql_cached E query parameters ttl g).1 = .error e ∧
        (graphql_cached E query parameters ttl g).2 =
          { g with trace := g.trace ++
              [.cache_get (graphql_cache_key query parameters g.extra_cache_keys)] } ∧
        (graphql_cached E query parameters ttl g).2.liveCalls = g.liveCalls ∧
        (graphql_cached E query parameters ttl g).2.storeSets = g.storeSets ∧
        (graphql_cached E query parameters ttl g).2.storeGets = g.storeGets + 1) ∧
    (∀ route options ttl,
      E.cache_get g.cache (request_cache_key route options g.extra_cache_keys)
          = .error e →
        (request_cached E route options ttl g).1 = .error e ∧
        (request_cached E route options ttl g).2 =
          { g with trace := g.trace ++
              [.cache_get (request_cache_key route options g.extra_cache_keys)] } ∧
        (request_cached E route options ttl g).2.liveCalls = g.liveCalls ∧
        (request_cached E route options ttl g).2.storeSets = g.storeSets ∧
        (request_cached E route options ttl g).2.storeGets = g.storeGets + 1) := by
  constructor
  · intro query parameters ttl hget
    rw [graphql_cached_of_get_error E query parameters ttl g e hget]
    simp [liveCalls, storeSets, storeGets, Event.isLive, Event.isSet, Event.isGet]
  · intro route options ttl hget
    rw [request_cached_of_get_error E route options ttl g e hget]
    simp [liveCalls, storeSets, storeGets, Event.isLive, Event.isSet, Event.isGet]

/-- C7 at a store whose every operation throws `EIO`. -/
theorem store_read_failure_propagates_witness :
    (graphql_cached memoryCollaborators "q" (.obj []) .undefined
        (fresh ⟨[], some ⟨"Error", "EIO"⟩⟩ [.ok (.obj [])] .undefined)).1
      = .error ⟨"Error", "EIO"⟩ ∧
    (request_cached memoryCollaborators "GET /user" (.obj []) .undefined
        (fresh ⟨[], some ⟨"Error", "EIO"⟩⟩ [.ok (.obj [])] .undefined)).2.liveCalls
      = 0 :=
  ⟨((store_read_failure_propagates memoryCollaborators
        (fresh ⟨[], some ⟨"Error", "EIO"⟩⟩ [.ok (.obj [])] .undefined)
        ⟨"Error", "EIO"⟩).1 "q" (.obj []) .undefined rfl).1,
    ((store_read_failure_propagates memoryCollaborators
        (fresh ⟨[], some ⟨"Error", "EIO"⟩⟩ [.ok (.obj [])] .undefined)
        ⟨"Error", "EIO"⟩).2 "GET /user" (.obj []) .undefined rfl).2.2.1⟩

/-- C2 (failure isolation): on a miss whose live call throws `e`, each cached
method fails with exactly `e`, starts no store write and leaves the store and
the writes in flight as they were; a second call with the same key reads the
same falsy value again and again attempts the live call. -/
theorem failure_isolation (E : Collaborators σ κ) (g : CachedOctokit σ κ)
    (v : JSValue) (e : JSError) (api : κ) (hv : v.ToBoolean = false) :
    (∀ query parameters ttl ttl2,
      E.cache_get g.cache (graphql_cache_key query parameters g.extra_cache_keys)
          = .ok v →
      E.graphql g.api query parameters = (.error e, api) →
        (graphql_cached E query parameters ttl g).1 = .error e ∧
        (graphql_cached E query parameters ttl g).2.cache = g.cache ∧
        (graphql_cached E query parameters ttl g).2.pending = g.pending ∧
        (graphql_cached E query parameters ttl g).2.storeSets = g.storeSets ∧
        E.cache_get (graphql_cached E query parameters ttl g).2.cache
          (graphql_cache_key query parameters
            (graphql_cached E query parameters ttl g).2.extra_cache_keys) = .ok v ∧
        ∃ rest,
          (graphql_cached E query parameters ttl2
              (graphql_cached E query parameters ttl g).2).2.trace =
            (graphql_cached E query parameters ttl g).2.trace ++
              [.cache_get (graphql_cache_key query parameters g.extra_cache_keys),
                .graphql query parameters] ++ rest) ∧
    (∀ route options ttl ttl2,
      E.cache_get g.cache (request_cache_key route options g.extra_cache_keys)
          = .ok v →
      E.request g.api route options = (.error e, api) →
        (request_cached E route options ttl g).1 = .error e ∧
        (request_cached E route options ttl g).2.cache = g.cache ∧
        (request_cached E route options ttl g).2.pending = g.pending ∧
        (request_cached E route options ttl g).2.storeSets = g.storeSets ∧
        E.cache_get (request_cached E route options ttl g).2.cache
          (request_cache_key route options
            (request_cached E route options ttl g).2.extra_cache_keys) = .ok v ∧
        ∃ rest,
          (request_cached E route options ttl2
              (request_cached E route options ttl g).2).2.trace =
            (request_cached E route options ttl g).2.trace ++
              [.cache_get (request_cache_key route options g.extra_cache_keys),
                .request route options] ++ rest) := by
  constructor
  · intro query parameters ttl ttl2 hget hlive
    rw [graphql_cached_of_live_error E query parameters ttl g v e api hget hv hlive]
    refine ⟨rfl, rfl, rfl, ?_, hget, ?_⟩
    · simp [storeSets, Event.isLive, Event.isSet, Event.isGet]
    · exact graphql_cached_miss_attempts E query parameters ttl2 _ v hget hv
  · intro route options ttl ttl2 hget hlive
    rw [request_cached_of_live_error E route options ttl g v e api hget hv hlive]
    refine ⟨rfl, rfl, rfl, ?_, hget, ?_⟩
    · simp [storeSets, Event.isLive, Event.isSet, Event.isGet]
    · exact request_cached_miss_attempts E route options ttl2 _ v hget hv

/-- C2 at an empty in-memory store and a client whose first response is a
thrown `HttpError`. -/
theorem failure_isolation_witness :
    (graphql_cached memoryCollaborators "q" (.obj []) .undefined
        (fresh ⟨[], none⟩ [.error ⟨"HttpError", "502"⟩] .undefined)).1
      = .error ⟨"HttpError", "502"⟩ ∧
    (request_cached memoryCollaborators "GET /user" (.obj []) .undefined
        (fresh ⟨[], none⟩ [.error ⟨"HttpError", "502"⟩] .undefined)).2.storeSets
      = 0 :=
  ⟨((failure_isolation memoryCollaborators
        (fresh ⟨[], none⟩ [.error ⟨"HttpError", "502"⟩] .undefined)
        .undefined ⟨"HttpError", "502"⟩ [] rfl).1
        "q" (.obj []) .undefined .undefined rfl rfl).1,
    ((failure_isolation memoryCollaborators
        (fresh ⟨[], none⟩ [.error ⟨"HttpError", "502"⟩] .undefined)
        .undefined ⟨"HttpError", "502"⟩ [] rfl).2
        "GET /user" (.obj []) .undefined .undefined rfl rfl).2.2.2.1⟩

/-- C9 (a failed live call still counts as a miss): on a miss whose live call
throws, `misses` has grown by exactly one and `hits` is unchanged when the
method fails. -/
theorem failed_live_call_counts_as_miss (E : Collaborators σ κ)
    (g : CachedOctokit σ κ) (v : JSValue) (e : JSError) (api : κ)
    (hv : v.ToBoolean = false) :
    (∀ query parameters ttl,
      E.cache_get g.cache (graphql_cache_key query parameters g.extra_cache_keys)
          = .ok v →
      E.graphql g.api query parameters = (.error e, api) →
        (graphql_cached E query parameters ttl g).1 = .error e ∧
        (graphql_cached E query parameters ttl g).2.misses = g.misses + 1 ∧
        (graphql_cached E query parameters ttl g).2.hits = g.hits) ∧
    (∀ route options ttl,
      E.cache_get g.cache (request_cache_key route options g.extra_cache_keys)
          = .ok v →
      E.request g.api route options = (.error e, api) →
        (request_cached E route options ttl g).1 = .error e ∧
        (request_cached E route options ttl g).2.misses = g.misses + 1 ∧
        (request_cached E route options ttl g).2.hits = g.hits) := by
  constructor
  · intro query parameters ttl hget hlive
    rw [graphql_cached_of_live_error E query parameters ttl g v e api hget hv hlive]
    exact ⟨rfl, rfl, rfl⟩
  · intro route options ttl hget hlive
    rw [request_cached_of_live_error E route options ttl g v e api hget hv hlive]
    exact ⟨rfl, rfl, rfl⟩

/-- C9 at an empty in-memory store and a client whose first response is a
thrown `HttpError`. -/
theorem failed_live_call_counts_as_miss_witness :
    (graphql_cached memoryCollaborators "q" (.obj []) .undefined
        (fresh ⟨[], none⟩ [.error ⟨"HttpError", "502"⟩] .undefined)).2.misses
      = 0 + 1 ∧
    (request_cached memoryCollaborators "GET /user" (.obj []) .undefined
        (fresh ⟨[], none⟩ [.error ⟨"HttpError", "502"⟩] .undefined)).2.hits
      = 0 :=
  ⟨((failed_live_call_counts_as_miss memoryCollaborators
        (fresh ⟨[], none⟩ [.error ⟨"HttpError", "502"⟩] .undefined)
        .undefined ⟨"HttpError", "502"⟩ [] rfl).1
        "q" (.obj []) .undefined rfl rfl).2.1,
    ((failed_live_call_counts_as_miss memoryCollaborators
        (fresh ⟨[], none⟩ [.error ⟨"HttpError", "502"⟩] .undefined)
        .undefined ⟨"HttpError", "502"⟩ [] rfl).2
        "GET /user" (.obj []) .undefined rfl rfl).2.2⟩

/-! ## The store write -/

/-- C8 (time-to-live pass-through): on a miss whose live call succeeds with
`live_data`, each cached method hands the store the write of `live_data` under
the key it looked up, with the caller's `retention_in_seconds`, which is 3600
when the argument is `undefined`, and returns `live_data`. `graphql_cached`
leaves exactly that write in flight, and the store receives it when the write
completes; `request_cached` returns with the store the write produced, or fails
with the error the write threw. Nothing else of the gateway changes but the
miss counter, the client state and the trace of the three calls. -/
theorem ttl_pass_through (E : Collaborators σ κ) (g : CachedOctokit σ κ)
    (v live_data : JSValue) (api : κ) (hv : v.ToBoolean = false) :
    (∀ query parameters ttl,
      E.cache_get g.cache (graphql_cache_key query parameters g.extra_cache_keys)
          = .ok v →
      E.graphql g.api query parameters = (.ok live_data, api) →
        graphql_cached E query parameters ttl g =
          (.ok live_data,
            { g with
              api := api
              misses := g.misses + 1
              pending := g.pending ++
                [⟨graphql_cache_key query parameters g.extra_cache_keys, live_data,
                  retention_default ttl⟩]
              trace := g.trace ++
                [.cache_get (graphql_cache_key query parameters g.extra_cache_keys),
                  .graphql query parameters,
                  .cache_set (graphql_cache_key query parameters g.extra_cache_keys)
                    live_data (retention_default ttl)] }) ∧
        (g.pending = [] → ∀ cache, E.cache_set g.cache
            (graphql_cache_key query parameters g.extra_cache_keys) live_data
            (retention_default ttl) = .ok cache →
          (settle E (graphql_cached E query parameters ttl g).2).cache = cache)) ∧
    (∀ route options ttl,
      E.cache_get g.cache (request_cache_key route options g.extra_cache_keys)
          = .ok v →
      E.request g.api route options = (.ok live_data, api) →
        (∀ cache, E.cache_set g.cache
            (request_cache_key route options g.extra_cache_keys) live_data
            (retention_default ttl) = .ok cache →
          request_cached E route options ttl g =
            (.ok live_data,
              { g with
                cache := cache
                api := api
                misses := g.misses + 1
                trace := g.trace ++
                  [.cache_get (request_cache_key route options g.extra_cache_keys),
                    .request route options,
                    .cache_set (request_cache_key route options g.extra_cache_keys)
                      live_data (retention_default ttl)] })) ∧
        (∀ e, E.cache_set g.cache
            (request_cache_key route options g.extra_cache_keys) live_data
            (retention_default ttl) = .error e →
          request_cached E route options ttl g =
            (.error e,
              { g with
                api := api
                misses := g.misses + 1
                trace := g.trace ++
                  [.cache_get (request_cache_key route options g.extra_cache_keys),
                    .request route options,
                    .cache_set (request_cache_key route options g.extra_cache_keys)
                      live_data (retention_default ttl)] }))) ∧
    retention_default .undefined = .num 3600 ∧
    (∀ ttl : JSValue, ttl.isUndefined = false → retention_default ttl = ttl) := by
  refine ⟨?_, ?_, rfl, ?_⟩
  · intro query parameters ttl hget hlive
    rw [graphql_cached_of_live_ok E query parameters ttl g v live_data api hget hv
      hlive]
    refine ⟨rfl, ?_⟩
    intro hp cache hset
    simp [settle, hp, hset]
  · intro route options ttl hget hlive
    exact ⟨fun cache hset => request_cached_of_live_ok E route options ttl g v
        live_data api cache hget hv hlive hset,
      fun e hset => request_cached_of_set_error E route options ttl g v live_data api
        e hget hv hlive hset⟩
  · intro ttl h
    simp [retention_default, h]

/-- C8 in the scenario of the specification, with the retention left out by the
caller of `graphql_cached` and given as 60 by the caller of `request_cached`:
the write in flight and the entry in the store carry the key, the live result
and the retention. -/
theorem ttl_pass_through_witness :
    (graphql_cached memoryCollaborators "q" (.obj []) .undefined
        (scenarioGateway scenarioResponse)).2.pending =
      [⟨graphql_cache_key "q" (.obj [])
          (scenarioGateway scenarioResponse).extra_cache_keys, scenarioResponse,
        .num 3600⟩] ∧
    (request_cached memoryCollaborators "GET /orgs/acme/members" scenarioOptions
        (.num 60) (scenarioGateway scenarioResponse)).2.cache.entries =
      [(request_cache_key "GET /orgs/acme/members" scenarioOptions
          (scenarioGateway scenarioResponse).extra_cache_keys, scenarioResponse,
        .num 60)] ∧
    (request_cached memoryCollaborators "GET /orgs/acme/members" scenarioOptions
        (.num 60) (scenarioGateway scenarioResponse)).2.trace =
      [.cache_get (request_cache_key "GET /orgs/acme/members" scenarioOptions
          (scenarioGateway scenarioResponse).extra_cache_keys),
        .request "GET /orgs/acme/members" scenarioOptions,
        .cache_set (request_cache_key "GET /orgs/acme/members" scenarioOptions
          (scenarioGateway scenarioResponse).extra_cache_keys) scenarioResponse
          (.num 60)] :=
  ⟨congrArg (fun r => r.2.pending)
      (((ttl_pass_through memoryCollaborators (scenarioGateway scenarioResponse)
        .undefined scenarioResponse [.ok scenarioResponse] rfl).1
        "q" (.obj []) .undefined rfl rfl).1),
    congrArg (fun r => r.2.cache.entries)
      ((((ttl_pass_through memoryCollaborators (scenarioGateway scenarioResponse)
        .undefined scenarioResponse [.ok scenarioResponse] rfl).2.1
        "GET /orgs/acme/members" scenarioOptions (.num 60) rfl rfl).1
        ⟨[(request_cache_key "GET /orgs/acme/members" scenarioOptions
            (scenarioGateway scenarioResponse).extra_cache_keys, scenarioResponse,
          .num 60)], none⟩ rfl)),
    congrArg (fun r => r.2.trace)
      ((((ttl_pass_through memoryCollaborators (scenarioGateway scenarioResponse)
        .undefined scenarioResponse [.ok scenarioResponse] rfl).2.1
        "GET /orgs/acme/members" scenarioOptions (.num 60) rfl rfl).1
        ⟨[(request_cache_key "GET /orgs/acme/members" scenarioOptions
            (scenarioGateway scenarioResponse).extra_cache_keys, scenarioResponse,
          .num 60)], none⟩ rfl))⟩

/-- C5, `graphql_cached` in the scenario of the specification: the call returns
the live result while its store write is still in flight; the store has no
entry for the key, so the same call issued right away misses again and goes to
the live client a second time. Once the environment has completed the write,
the entry is there. -/
theorem graphql_cached_leaves_write_in_flight :
    (graphql_cached memoryCollaborators "q" (.obj []) .undefined
        (scenarioGateway scenarioResponse)).1 = .ok scenarioResponse ∧
    (graphql_cached memoryCollaborators "q" (.obj []) .undefined
        (scenarioGateway scenarioResponse)).2.cache.entries = [] ∧
    (graphql_cached memoryCollaborators "q" (.obj []) .undefined
        (scenarioGateway scenarioResponse)).2.pending.length = 1 ∧
    memoryCollaborators.cache_get
        (graphql_cached memoryCollaborators "q" (.obj []) .undefined
          (scenarioGateway scenarioResponse)).2.cache
        (graphql_cache_key "q" (.obj [])
          (scenarioGateway scenarioResponse).extra_cache_keys) = .ok .undefined ∧
    (graphql_cached memoryCollaborators "q" (.obj []) .undefined
        (graphql_cached memoryCollaborators "q" (.obj []) .undefined
          (scenarioGateway scenarioResponse)).2).2.liveCalls = 2 ∧
    memoryCollaborators.cache_get
        (settle memoryCollaborators
          (graphql_cached memoryCollaborators "q" (.obj []) .undefined
            (scenarioGateway scenarioResponse)).2).cache
        (graphql_cache_key "q" (.obj [])
          (scenarioGateway scenarioResponse).extra_cache_keys)
      = .ok scenarioResponse ∧
    memoryCollaborators.cache_get
        (request_cached memoryCollaborators "q" (.obj []) .undefined
          (scenarioGateway scenarioResponse)).2.cache
        (request_cache_key "q" (.obj [])
          (scenarioGateway scenarioResponse).extra_cache_keys)
      = .ok scenarioResponse := by
  refine ⟨rfl, rfl, rfl, rfl, rfl, rfl, rfl⟩

/-! ## Cache-aside behaviour of `request_cached` -/

/-- C1 as stated fails for a falsy live result: the live client answers `null`,
the first call stores `null` and returns it, the store gives `null` back, and
the second call, issued right away, goes to the live client again. -/
theorem request_cached_refetches_falsy_result :
    (request_cached memoryCollaborators "GET /orgs/acme/members" scenarioOptions
        (.num 60) (scenarioGateway .null)).1 = .ok .null ∧
    (request_cached memoryCollaborators "GET /orgs/acme/members" scenarioOptions
        (.num 60) (scenarioGateway .null)).2.liveCalls = 1 ∧
    (request_cached memoryCollaborators "GET /orgs/acme/members" scenarioOptions
        (.num 60) (scenarioGateway .null)).2.storeSets = 1 ∧
    memoryCollaborators.cache_get
        (request_cached memoryCollaborators "GET /orgs/acme/members" scenarioOptions
          (.num 60) (scenarioGateway .null)).2.cache
        (request_cache_key "GET /orgs/acme/members" scenarioOptions
          (scenarioGateway .null).extra_cache_keys) = .ok .null ∧
    (request_cached memoryCollaborators "GET /orgs/acme/members" scenarioOptions
        (.num 60)
        (request_cached memoryCollaborators "GET /orgs/acme/members" scenarioOptions
          (.num 60) (scenarioGateway .null)).2).2.liveCalls = 2 ∧
    (request_cached memoryCollaborators "GET /orgs/acme/members" scenarioOptions
        (.num 60)
        (request_cached memoryCollaborators "GET /orgs/acme/members" scenarioOptions
          (.num 60) (scenarioGateway .null)).2).2.hits = 0 := by
  refine ⟨rfl, rfl, rfl, rfl, rfl, rfl⟩

/-- C1, amended to truthy live results: the store has no entry for the key, the
live request answers a truthy `live_data`, the store accepts the write and
gives the value back. Then the first call makes exactly one live request and
one store write and returns `live_data`; the second call with the same route
and options makes no live request and no store write and returns `live_data`;
afterwards one miss and one hit have been counted. -/
theorem request_cached_cache_aside (E : Collaborators σ κ) (g : CachedOctokit σ κ)
    (route : String) (options ttl ttl2 live_data : JSValue) (api : κ) (cache : σ)
    (htruthy : live_data.ToBoolean = true)
    (habsent : E.cache_get g.cache
      (request_cache_key route options g.extra_cache_keys) = .ok .undefined)
    (hlive : E.request g.api route options = (.ok live_data, api))
    (hset : E.cache_set g.cache (request_cache_key route options g.extra_cache_keys)
      live_data (retention_default ttl) = .ok cache)
    (hback : E.cache_get cache
      (request_cache_key route options g.extra_cache_keys) = .ok live_data) :
    (request_cached E route options ttl g).1 = .ok live_data ∧
    (request_cached E route options ttl g).2.liveCalls = g.liveCalls + 1 ∧
    (request_cached E route options ttl g).2.storeSets = g.storeSets + 1 ∧
    (request_cached E route options ttl2 (request_cached E route options ttl g).2).1
      = .ok live_data ∧
    (request_cached E route options ttl2
        (request_cached E route options ttl g).2).2.liveCalls
      = (request_cached E route options ttl g).2.liveCalls ∧
    (request_cached E route options ttl2
        (request_cached E route options ttl g).2).2.storeSets
      = (request_cached E route options ttl g).2.storeSets ∧
    (request_cached E route options ttl2
        (request_cached E route options ttl g).2).2.misses = g.misses + 1 ∧
    (request_cached E route options ttl2
        (request_cached E route options ttl g).2).2.hits = g.hits + 1 := by
  rw [request_cached_of_live_ok E route options ttl g .undefined live_data api cache
    habsent rfl hlive hset]
  rw [request_cached_of_hit E route options ttl2 _ live_data hback htruthy]
  simp [liveCalls, storeSets, Event.isLive, Event.isSet]

/-- The scenario of the specification: configuration `{auth: "tok1"}`,
`request_cached("GET /orgs/acme/members", {role: "admin", per_page: 100}, 60)`
twice in a row against an empty in-memory store; `misses == 1`, `hits == 1`. -/
theorem request_cached_cache_aside_witness :
    (request_cached memoryCollaborators "GET /orgs/acme/members" scenarioOptions
        (.num 60)
        (request_cached memoryCollaborators "GET /orgs/acme/members" scenarioOptions
          (.num 60) (scenarioGateway scenarioResponse)).2).1 = .ok scenarioResponse ∧
    (request_cached memoryCollaborators "GET /orgs/acme/members" scenarioOptions
        (.num 60)
        (request_cached memoryCollaborators "GET /orgs/acme/members" scenarioOptions
          (.num 60) (scenarioGateway scenarioResponse)).2).2.liveCalls = 1 ∧
    (request_cached memoryCollaborators "GET /orgs/acme/members" scenarioOptions
        (.num 60)
        (request_cached memoryCollaborators "GET /orgs/acme/members" scenarioOptions
          (.num 60) (scenarioGateway scenarioResponse)).2).2.misses = 1 ∧
    (request_cached memoryCollaborators "GET /orgs/acme/members" scenarioOptions
        (.num 60)
        (request_cached memoryCollaborators "GET /orgs/acme/members" scenarioOptions
          (.num 60) (scenarioGateway scenarioResponse)).2).2.hits = 1 :=
  have h := request_cached_cache_aside memoryCollaborators
    (scenarioGateway scenarioResponse) "GET /orgs/acme/members" scenarioOptions
    (.num 60) (.num 60) scenarioResponse [.ok scenarioResponse]
    ⟨[(request_cache_key "GET /orgs/acme/members" scenarioOptions
        (scenarioGateway scenarioResponse).extra_cache_keys, scenarioResponse,
        .num 60)], none⟩
    rfl rfl rfl rfl rfl
  ⟨h.2.2.2.1, h.2.2.2.2.1.trans h.2.1, h.2.2.2.2.2.2.1, h.2.2.2.2.2.2.2⟩

end CachedOctokit

/-! ## The counters -/

section Counters

variable {σ κ : Type}

/-- One call adds one to `hits` exactly when the store answers with a truthy
value, and one to `misses` exactly when it answers with a falsy value. -/
theorem Call.run_counters (E : Collaborators σ κ) (c : Call)
    (g : CachedOctokit σ κ) :
    (c.run E g).2.hits = g.hits + (if answerTruthy (c.lookup E g) then 1 else 0) ∧
    (c.run E g).2.misses =
      g.misses + (if answerFalsy (c.lookup E g) then 1 else 0) := by
  cases c with
  | graphql_cached query parameters ttl =>
    dsimp only [Call.run, Call.lookup]
    rcases hget : E.cache_get g.cache
        (CachedOctokit.graphql_cache_key query parameters g.extra_cache_keys)
        with e | v
    · rw [CachedOctokit.graphql_cached_of_get_error E query parameters ttl g e hget]
      simp [answerTruthy, answerFalsy]
    · cases hv : v.ToBoolean
      · rcases hlive : E.graphql g.api query parameters with ⟨r, api⟩
        cases r with
        | error e =>
          rw [CachedOctokit.graphql_cached_of_live_error E query parameters ttl g v e
            api hget hv hlive]
          simp [answerTruthy, answerFalsy, hv]
        | ok d =>
          rw [CachedOctokit.graphql_cached_of_live_ok E query parameters ttl g v d
            api hget hv hlive]
          simp [answerTruthy, answerFalsy, hv]
      · rw [CachedOctokit.graphql_cached_of_hit E query parameters ttl g v hget hv]
        simp [answerTruthy, answerFalsy, hv]
  | request_cached route options ttl =>
    dsimp only [Call.run, Call.lookup]
    rcases hget : E.cache_get g.cache
        (CachedOctokit.request_cache_key route options g.extra_cache_keys)
        with e | v
    · rw [CachedOctokit.request_cached_of_get_error E route options ttl g e hget]
      simp [answerTruthy, answerFalsy]
    · cases hv : v.ToBoolean
      · rcases hlive : E.request g.api route options with ⟨r, api⟩
        cases r with
        | error e =>
          rw [CachedOctokit.request_cached_of_live_error E route options ttl g v e
            api hget hv hlive]
          simp [answerTruthy, answerFalsy, hv]
        | ok d =>
          rcases hset : E.cache_set g.cache
              (CachedOctokit.request_cache_key route options g.extra_cache_keys) d
              (CachedOctokit.retention_default ttl) with e | c1
          · rw [CachedOctokit.request_cached_of_set_error E route options ttl g v d
              api e hget hv hlive hset]
            simp [answerTruthy, answerFalsy, hv]
          · rw [CachedOctokit.request_cached_of_live_ok E route options ttl g v d
              api c1 hget hv hlive hset]
            simp [answerTruthy, answerFalsy, hv]
      · rw [CachedOctokit.request_cached_of_hit E route options ttl g v hget hv]
        simp [answerTruthy, answerFalsy, hv]

/-- An answer is truthy or falsy exactly when the store answered, and never
both. -/
theorem answer_truthy_or_falsy (r : Except JSError JSValue) :
    ((if answerTruthy r then 1 else 0) + (if answerFalsy r then 1 else 0) : Nat) =
      (if answered r then 1 else 0) := by
  cases r with
  | error e => simp [answerTruthy, answerFalsy, answered]
  | ok v => cases hv : v.ToBoolean <;> simp [answerTruthy, answerFalsy, answered, hv]

/-- C4 as stated fails when the store holds a falsy entry: the store has the
entry `null` under the key, the call finds it, completes normally with the live
result, and is counted as a miss, not as a hit. -/
theorem falsy_entry_is_counted_as_miss :
    allComplete memoryCollaborators
        [.request_cached "GET /user" (.obj []) .undefined]
        (gatewayWithStored .null) = true ∧
    countLookups entryFound memoryCollaborators
        [.request_cached "GET /user" (.obj []) .undefined]
        (gatewayWithStored .null) = 1 ∧
    countLookups entryAbsent memoryCollaborators
        [.request_cached "GET /user" (.obj []) .undefined]
        (gatewayWithStored .null) = 0 ∧
    (run_calls memoryCollaborators
        [.request_cached "GET /user" (.obj []) .undefined]
        (gatewayWithStored .null)).hits = 0 ∧
    (run_calls memoryCollaborators
        [.request_cached "GET /user" (.obj []) .undefined]
        (gatewayWithStored .null)).misses = 1 := by
  refine ⟨rfl, rfl, rfl, rfl, rfl⟩

/-- C4, amended to what the gateway tests: after any sequence of cached calls,
in any interleaving, `hits` has grown by the number of calls whose store lookup
answered a truthy value and `misses` by the number whose lookup answered a
falsy value (`undefined` included); each call whose lookup answered adds one to
exactly one of the two counters, so together they have grown by the number of
such calls. A freshly constructed gateway starts both at zero. -/
theorem counters_exact (E : Collaborators σ κ) (calls : List Call)
    (g : CachedOctokit σ κ) :
    (run_calls E calls g).hits = g.hits + countLookups answerTruthy E calls g ∧
    (run_calls E calls g).misses = g.misses + countLookups answerFalsy E calls g ∧
    countLookups answerTruthy E calls g + countLookups answerFalsy E calls g =
      countLookups answered E calls g ∧
    (∀ (cache : σ) (api : κ) (octokit_options : JSValue) (octokit : CachedOctokit σ κ),
      CachedOctokit.constructor E cache api octokit_options = .ok octokit →
        octokit.hits = 0 ∧ octokit.misses = 0) := by
  refine ⟨?_, ?_, ?_, ?_⟩
  rotate_left 3
  · intro cache api octokit_options octokit h
    simp only [CachedOctokit.constructor] at h
    split at h
    · cases h
    · cases h
      exact ⟨rfl, rfl⟩
  · induction calls generalizing g with
    | nil => simp [run_calls, countLookups]
    | cons c cs ih =>
      simp only [run_calls, countLookups]
      rw [ih, (Call.run_counters E c g).1, Nat.add_assoc]
  · induction calls generalizing g with
    | nil => simp [run_calls, countLookups]
    | cons c cs ih =>
      simp only [run_calls, countLookups]
      rw [ih, (Call.run_counters E c g).2, Nat.add_assoc]
  · induction calls generalizing g with
    | nil => simp [countLookups]
    | cons c cs ih =>
      simp only [countLookups]
      rw [← ih, ← answer_truthy_or_falsy]
      omega

/-- C4 amended, at a gateway as the constructor builds it for an absent
configuration, after one `request_cached` against an empty store: no hit, one
miss, one lookup answered. -/
theorem counters_exact_witness :
    CachedOctokit.constructor memoryCollaborators ⟨[], none⟩ [.ok scenarioResponse]
        .undefined = .ok absentConfigurationGateway ∧
    absentConfigurationGateway.hits = 0 ∧
    (run_calls memoryCollaborators [.request_cached "GET /user" (.obj []) .undefined]
        absentConfigurationGateway).misses =
      0 + countLookups answerFalsy memoryCollaborators
        [.request_cached "GET /user" (.obj []) .undefined]
        absentConfigurationGateway :=
  ⟨rfl,
    ((counters_exact memoryCollaborators [] absentConfigurationGateway).2.2.2
        ⟨[], none⟩ [.ok scenarioResponse] .undefined absentConfigurationGateway
        rfl).1,
    (counters_exact memoryCollaborators
        [.request_cached "GET /user" (.obj []) .undefined]
        absentConfigurationGateway).2.1⟩

end Counters

/-! ## Decimal digits -/

theorem digitChar_spec :
    ∀ d, d < 10 → (Nat.digitChar d).isDigit = true ∧ (Nat.digitChar d).toNat - 48 = d := by
  decide

theorem toDigitsCore_append (fuel : Nat) :
    ∀ (n : Nat) (ds : List Char),
      Nat.toDigitsCore 10 fuel n ds = Nat.toDigitsCore 10 fuel n [] ++ ds := by
  induction fuel with
  | zero => intro n ds; simp [Nat.toDigitsCore]
  | succ fuel ih =>
    intro n ds
    simp only [Nat.toDigitsCore]
    split
    · simp
    · rw [ih (n / 10) (Nat.digitChar (n % 10) :: ds), ih (n / 10) [Nat.digitChar (n % 10)]]
      simp

theorem decimalValue_append_digit (ds : List Char) (c : Char) :
    decimalValue (ds ++ [c]) = 10 * decimalValue ds + (c.toNat - 48) := by
  simp [decimalValue, List.foldl_append]

theorem decimalValue_toDigitsCore (fuel : Nat) :
    ∀ n, n < fuel → decimalValue (Nat.toDigitsCore 10 fuel n []) = n := by
  induction fuel with
  | zero => intro n h; omega
  | succ fuel ih =>
    intro n h
    simp only [Nat.toDigitsCore]
    split
    · rename_i h0
      have hlt : n < 10 := by omega
      have := (digitChar_spec (n % 10) (Nat.mod_lt _ (by decide))).2
      simp [decimalValue, this]
      omega
    · rename_i h0
      rw [toDigitsCore_append, decimalValue_append_digit, ih (n / 10) (by omega),
        (digitChar_spec (n % 10) (Nat.mod_lt _ (by decide))).2]
      omega

theorem decimalValue_toDigits (n : Nat) : decimalValue (Nat.toDigits 10 n) = n :=
  decimalValue_toDigitsCore (n + 1) n (Nat.lt_succ_self n)

theorem toDigitsCore_isDigit (fuel : Nat) :
    ∀ (n : Nat) (ds : List Char), (∀ c ∈ ds, c.isDigit = true) →
      ∀ c ∈ Nat.toDigitsCore 10 fuel n ds, c.isDigit = true := by
  induction fuel with
  | zero => intro n ds h; simpa [Nat.toDigitsCore] using h
  | succ fuel ih =>
    intro n ds h
    have hd : ∀ c ∈ Nat.digitChar (n % 10) :: ds, c.isDigit = true := by
      intro c hc
      rcases List.mem_cons.1 hc with rfl | hc
      · exact (digitChar_spec (n % 10) (Nat.mod_lt _ (by decide))).1
      · exact h c hc
    simp only [Nat.toDigitsCore]
    split
    · exact hd
    · exact ih (n / 10) _ hd

theorem toDigits_isDigit (n : Nat) : ∀ c ∈ Nat.toDigits 10 n, c.isDigit = true :=
  toDigitsCore_isDigit (n + 1) n [] (by simp)

theorem toDigits_ne_nil (n : Nat) : Nat.toDigits 10 n ≠ [] := by
  unfold Nat.toDigits
  simp only [Nat.toDigitsCore]
  split
  · simp
  · rw [toDigitsCore_append]; simp

/-- Two runs of digits followed by text that does not begin with a digit are
equal as soon as the whole texts are. -/
theorem digits_delimited :
    ∀ (a b r r' : List Char), (∀ c ∈ a, c.isDigit = true) → (∀ c ∈ b, c.isDigit = true) →
      (∀ c t, r = c :: t → c.isDigit = false) → (∀ c t, r' = c :: t → c.isDigit = false) →
      a ++ r = b ++ r' → a = b ∧ r = r' := by
  intro a
  induction a with
  | nil =>
    intro b r r' _ hb hr _ h
    cases b with
    | nil => exact ⟨rfl, by simpa using h⟩
    | cons c b =>
      have := hr c (b ++ r') (by simpa using h)
      rw [hb c (by simp)] at this
      cases this
  | cons x a ih =>
    intro b r r' ha hb hr hr' h
    cases b with
    | nil =>
      have := hr' x (a ++ r) (by simpa using h.symm)
      rw [ha x (by simp)] at this
      cases this
    | cons y b =>
      simp only [List.cons_append, List.cons.injEq] at h
      obtain ⟨hxy, h⟩ := h
      obtain ⟨hab, hrr⟩ := ih b r r' (fun c hc => ha c (by simp [hc]))
        (fun c hc => hb c (by simp [hc])) hr hr' h
      exact ⟨by rw [hxy, hab], hrr⟩

/-- `Number_toString` followed by text that does not begin with a digit can be
read back. -/
theorem Number_toString_delimited (n m : SafeInteger) (r r' : List Char)
    (hr : ∀ c t, r = c :: t → c.isDigit = false)
    (hr' : ∀ c t, r' = c :: t → c.isDigit = false)
    (h : Number_toString n ++ r = Number_toString m ++ r') : n = m ∧ r = r' := by
  obtain ⟨n, hn⟩ := n
  obtain ⟨m, hm⟩ := m
  simp only [SafeInteger.mk.injEq]
  have key : ∀ a b : Nat, Nat.toDigits 10 a ++ r = Nat.toDigits 10 b ++ r' →
      a = b ∧ r = r' := by
    intro a b hab
    obtain ⟨h1, h2⟩ := digits_delimited _ _ r r' (toDigits_isDigit a) (toDigits_isDigit b)
      hr hr' hab
    refine ⟨?_, h2⟩
    rw [← decimalValue_toDigits a, ← decimalValue_toDigits b, h1]
  have hhead : ∀ a : Nat, ∃ c t, Nat.toDigits 10 a = c :: t ∧ c.isDigit = true := by
    intro a
    cases hd : Nat.toDigits 10 a with
    | nil => exact absurd hd (toDigits_ne_nil a)
    | cons c t => exact ⟨c, t, rfl, toDigits_isDigit a c (by simp [hd])⟩
  cases n with
  | ofNat a =>
    cases m with
    | ofNat b =>
      obtain ⟨h1, h2⟩ := key a b h
      exact ⟨by rw [h1], h2⟩
    | negSucc b =>
      obtain ⟨c, t, hc, hdig⟩ := hhead a
      simp only [Number_toString, hc, List.cons_append, List.cons.injEq] at h
      rw [h.1] at hdig
      exact absurd hdig (by decide)
  | negSucc a =>
    cases m with
    | ofNat b =>
      obtain ⟨c, t, hc, hdig⟩ := hhead b
      simp only [Number_toString, hc, List.cons_append, List.cons.injEq] at h
      rw [← h.1] at hdig
      exact absurd hdig (by decide)
    | negSucc b =>
      simp only [Number_toString, List.cons_append, List.cons.injEq, true_and] at h
      obtain ⟨h1, h2⟩ := key (a + 1) (b + 1) h
      exact ⟨by rw [Nat.succ_injective h1], h2⟩

/-! ## Quoted strings -/

theorem hexValue_hexDigit :
    ∀ n, n < 32 → hexValue (hexDigit (n / 16)) * 16 + hexValue (hexDigit (n % 16)) = n := by
  decide

theorem char_eq_of_toNat {c : Char} {n : Nat} (h : c.toNat = n) : c = Char.ofNat n := by
  rw [← h, Char.ofNat_toNat]

/-- An escaped code point can be read back off the front of any text. -/
theorem unquoteChar_quoteChar (c : Char) (t : List Char) :
    unquoteChar (quoteChar c ++ t) = some (c, t) := by
  unfold quoteChar
  split_ifs with h8 h9 h10 h12 h13 h34 h92 h32
  · rw [char_eq_of_toNat h8]; rfl
  · rw [char_eq_of_toNat h9]; rfl
  · rw [char_eq_of_toNat h10]; rfl
  · rw [char_eq_of_toNat h12]; rfl
  · rw [char_eq_of_toNat h13]; rfl
  · rw [char_eq_of_toNat h34]; rfl
  · rw [char_eq_of_toNat h92]; rfl
  · have := hexValue_hexDigit c.toNat h32
    simp only [List.cons_append, List.nil_append, unquoteChar]
    simp [this, Char.ofNat_toNat]
  · have hne : c ≠ '\\' := by
      intro hc
      apply h92
      rw [hc]; rfl
    simp [unquoteChar, hne]

/-- The first character of an escaped code point is never the closing quote. -/
theorem quoteChar_head (c : Char) (t : List Char) :
    ∃ h u, quoteChar c ++ t = h :: u ∧ h ≠ '"' := by
  unfold quoteChar
  split_ifs with h8 h9 h10 h12 h13 h34 h92 h32
  all_goals first
    | exact ⟨'\\', _, rfl, by decide⟩
    | exact ⟨c, t, rfl, fun hc => h34 (by rw [hc]; rfl)⟩

/-- A quoted string body followed by the closing quote can be read back. -/
theorem quoteBody_delimited :
    ∀ (s s' r r' : List Char),
      quoteBody s ++ '"' :: r = quoteBody s' ++ '"' :: r' → s = s' ∧ r = r' := by
  intro s
  induction s with
  | nil =>
    intro s' r r' h
    cases s' with
    | nil => exact ⟨rfl, by simpa [quoteBody] using h⟩
    | cons c cs =>
      simp only [quoteBody, List.nil_append, List.append_assoc] at h
      obtain ⟨x, u, hxu, hx⟩ := quoteChar_head c (quoteBody cs ++ '"' :: r')
      rw [hxu] at h
      simp only [List.cons.injEq] at h
      exact absurd h.1.symm hx
  | cons c cs ih =>
    intro s' r r' h
    cases s' with
    | nil =>
      simp only [quoteBody, List.nil_append, List.append_assoc] at h
      obtain ⟨x, u, hxu, hx⟩ := quoteChar_head c (quoteBody cs ++ '"' :: r)
      rw [hxu] at h
      simp only [List.cons.injEq] at h
      exact absurd h.1 hx
    | cons c' cs' =>
      simp only [quoteBody, List.append_assoc] at h
      have h2 := congrArg unquoteChar h
      rw [unquoteChar_quoteChar, unquoteChar_quoteChar] at h2
      simp only [Option.some.injEq, Prod.mk.injEq] at h2
      obtain ⟨hcs, hr⟩ := ih cs' r r' h2.2
      exact ⟨by rw [h2.1, hcs], hr⟩

/-- `QuoteJSONString` can be read back off the front of any text. -/
theorem QuoteJSONString_delimited (s s' : String) (r r' : List Char)
    (h : QuoteJSONString s ++ r = QuoteJSONString s' ++ r') : s = s' ∧ r = r' := by
  simp only [QuoteJSONString, List.cons_append, List.append_assoc, List.cons.injEq,
    true_and, List.nil_append] at h
  obtain ⟨h1, h2⟩ := quoteBody_delimited _ _ _ _ h
  exact ⟨String.ext h1, h2⟩


/-! ## `JSON.stringify` on JSON data -/

theorem noDigitHead_nil : NoDigitHead [] := fun _ _ h => by cases h

theorem noDigitHead_cons {c : Char} (r : List Char) (hc : c.isDigit = false) :
    NoDigitHead (c :: r) := by
  intro d t h
  cases h
  exact hc

theorem charTag_of_isDigit {c : Char} (h : c.isDigit = true) : charTag c = 2 := by
  have h1 : c ≠ 'n' := by rintro rfl; revert h; decide
  have h2 : c ≠ 't' := by rintro rfl; revert h; decide
  have h3 : c ≠ 'f' := by rintro rfl; revert h; decide
  simp [charTag, h1, h2, h3, h]

/-- The first character of the serialisation of JSON data tells the class of
the value. -/
theorem serialize_head (v : JSValue) (hv : v.isJSON = true) (s : List Char)
    (hs : SerializeJSONProperty v = some s) : ∃ h t, s = h :: t ∧ charTag h = v.tag := by
  cases v with
  | undefined => simp [JSValue.isJSON] at hv
  | func n => simp [JSValue.isJSON] at hv
  | null =>
    simp only [SerializeJSONProperty, Option.some.injEq] at hs
    subst hs; exact ⟨_, _, rfl, by decide⟩
  | bool b =>
    cases b <;> simp only [SerializeJSONProperty, Option.some.injEq] at hs <;>
      subst hs <;> exact ⟨_, _, rfl, by decide⟩
  | num n =>
    simp only [SerializeJSONProperty, Option.some.injEq] at hs
    subst hs
    obtain ⟨n, hn⟩ := n
    cases n with
    | ofNat a =>
      cases hd : Nat.toDigits 10 a with
      | nil => exact absurd hd (toDigits_ne_nil a)
      | cons c t =>
        refine ⟨c, t, by simp [Number_toString, hd], ?_⟩
        exact charTag_of_isDigit (toDigits_isDigit a c (by simp [hd]))
    | negSucc a => exact ⟨'-', _, rfl, rfl⟩
  | str s0 =>
    simp only [SerializeJSONProperty, Option.some.injEq] at hs
    subst hs; exact ⟨_, _, rfl, rfl⟩
  | arr xs =>
    simp only [SerializeJSONProperty, Option.some.injEq] at hs
    subst hs; exact ⟨_, _, rfl, rfl⟩
  | obj ps =>
    simp only [SerializeJSONProperty, Option.some.injEq] at hs
    subst hs; exact ⟨_, _, rfl, rfl⟩

/-- JSON data always serialises to a string. -/
theorem serialize_isSome (v : JSValue) (hv : v.isJSON = true) :
    ∃ s, SerializeJSONProperty v = some s := by
  cases v with
  | undefined => simp [JSValue.isJSON] at hv
  | func n => simp [JSValue.isJSON] at hv
  | bool b => cases b <;> simp [SerializeJSONProperty]
  | _ => simp [SerializeJSONProperty]

theorem tag_eq_of_serialize_eq (v v' : JSValue) (hv : v.isJSON = true)
    (hv' : v'.isJSON = true) (s s' r r' : List Char)
    (hs : SerializeJSONProperty v = some s) (hs' : SerializeJSONProperty v' = some s')
    (h : s ++ r = s' ++ r') : v.tag = v'.tag := by
  obtain ⟨c, t, hc, htag⟩ := serialize_head v hv s hs
  obtain ⟨c', t', hc', htag'⟩ := serialize_head v' hv' s' hs'
  subst hc hc'
  simp only [List.cons_append, List.cons.injEq] at h
  rw [← htag, ← htag', h.1]

theorem arrayParts_cons (x : JSValue) (hx : x.isJSON = true) (t : List JSValue) :
    ∃ s, SerializeJSONProperty x = some s ∧ arrayParts (x :: t) = s :: arrayParts t := by
  obtain ⟨s, hs⟩ := serialize_isSome x hx
  exact ⟨s, hs, by simp [arrayParts, hs]⟩

theorem objectParts_cons (k : String) (x : JSValue) (hx : x.isJSON = true)
    (t : List (String × JSValue)) :
    ∃ s, SerializeJSONProperty x = some s ∧
      objectParts ((k, x) :: t) = (QuoteJSONString k ++ ':' :: s) :: objectParts t := by
  obtain ⟨s, hs⟩ := serialize_isSome x hx
  exact ⟨s, hs, by simp [objectParts, hs]⟩

/-- What follows the first of the strings joined by commas, up to and including
the closing bracket `close` and the text `r` after it. -/
theorem joinComma_cons_append (p : List Char) (ps : List (List Char)) (close : Char)
    (r : List Char) :
    joinComma (p :: ps) ++ close :: r =
      p ++ (match ps with
        | [] => close :: r
        | q :: qs => ',' :: (joinComma (q :: qs) ++ close :: r)) := by
  cases ps with
  | nil => simp [joinComma]
  | cons q qs => simp [joinComma]

mutual
theorem serialize_delimited : ∀ (v : JSValue), v.isJSON = true → ∀ (v' : JSValue),
    v'.isJSON = true → ∀ (s s' r r' : List Char),
    SerializeJSONProperty v = some s → SerializeJSONProperty v' = some s' →
    NoDigitHead r → NoDigitHead r' → s ++ r = s' ++ r' → v = v' ∧ r = r'
  | .undefined => fun hv => by simp [JSValue.isJSON] at hv
  | .func _ => fun hv => by simp [JSValue.isJSON] at hv
  | .null => fun hv v' hv' s s' r r' hs hs' hr hr' h => by
    have htag := tag_eq_of_serialize_eq _ v' hv hv' s s' r r' hs hs' h
    cases v' <;> simp [JSValue.tag] at htag
    simp only [SerializeJSONProperty, Option.some.injEq] at hs hs'
    subst hs hs'
    exact ⟨rfl, List.append_cancel_left h⟩
  | .bool b => fun hv v' hv' s s' r r' hs hs' hr hr' h => by
    have htag := tag_eq_of_serialize_eq _ v' hv hv' s s' r r' hs hs' h
    cases v' <;> simp [JSValue.tag] at htag
    rename_i b'
    cases b <;> cases b' <;> simp only [SerializeJSONProperty, Option.some.injEq] at hs hs' <;>
      subst hs hs' <;> simp at h <;> simp [h]
  | .num n => fun hv v' hv' s s' r r' hs hs' hr hr' h => by
    have htag := tag_eq_of_serialize_eq _ v' hv hv' s s' r r' hs hs' h
    cases v' <;> simp [JSValue.tag] at htag
    rename_i m
    simp only [SerializeJSONProperty, Option.some.injEq] at hs hs'
    subst hs hs'
    obtain ⟨h1, h2⟩ := Number_toString_delimited n m r r' hr hr' h
    exact ⟨by rw [h1], h2⟩
  | .str a => fun hv v' hv' s s' r r' hs hs' hr hr' h => by
    have htag := tag_eq_of_serialize_eq _ v' hv hv' s s' r r' hs hs' h
    cases v' <;> simp [JSValue.tag] at htag
    rename_i b
    simp only [SerializeJSONProperty, Option.some.injEq] at hs hs'
    subst hs hs'
    obtain ⟨h1, h2⟩ := QuoteJSONString_delimited a b r r' h
    exact ⟨by rw [h1], h2⟩
  | .arr xs => fun hv v' hv' s s' r r' hs hs' hr hr' h => by
    have htag := tag_eq_of_serialize_eq _ v' hv hv' s s' r r' hs hs' h
    cases v' <;> simp [JSValue.tag] at htag
    rename_i xs'
    simp only [SerializeJSONProperty, Option.some.injEq] at hs hs'
    subst hs hs'
    simp only [List.cons_append, List.append_assoc, List.cons.injEq, true_and,
      List.nil_append] at h
    simp only [JSValue.isJSON] at hv hv'
    obtain ⟨h1, h2⟩ := arrayParts_delimited xs hv xs' hv' r r' h
    exact ⟨by rw [h1], h2⟩
  | .obj ps => fun hv v' hv' s s' r r' hs hs' hr hr' h => by
    have htag := tag_eq_of_serialize_eq _ v' hv hv' s s' r r' hs hs' h
    cases v' <;> simp [JSValue.tag] at htag
    rename_i ps'
    simp only [SerializeJSONProperty, Option.some.injEq] at hs hs'
    subst hs hs'
    simp only [List.cons_append, List.append_assoc, List.cons.injEq, true_and,
      List.nil_append] at h
    simp only [JSValue.isJSON] at hv hv'
    obtain ⟨h1, h2⟩ := objectParts_delimited ps hv ps' hv' r r' h
    exact ⟨by rw [h1], h2⟩
theorem arrayParts_delimited : ∀ (xs : List JSValue), JSValue.allJSON xs = true →
    ∀ (xs' : List JSValue), JSValue.allJSON xs' = true → ∀ (r r' : List Char),
    joinComma (arrayParts xs) ++ ']' :: r = joinComma (arrayParts xs') ++ ']' :: r' →
    xs = xs' ∧ r = r'
  | [] => fun _ xs' hxs' r r' h => by
    cases xs' with
    | nil => simpa [arrayParts, joinComma] using h
    | cons x' t' =>
      simp only [JSValue.allJSON, Bool.and_eq_true] at hxs'
      obtain ⟨s', hs', hp'⟩ := arrayParts_cons x' hxs'.1 t'
      obtain ⟨c, u, hc, htag⟩ := serialize_head x' hxs'.1 s' hs'
      rw [hp', joinComma_cons_append, hc] at h
      simp only [arrayParts, joinComma, List.nil_append, List.cons_append,
        List.cons.injEq] at h
      rw [← h.1] at htag
      cases x' <;> simp [JSValue.tag, charTag] at htag <;> simp [JSValue.isJSON] at hxs'
  | x :: t => fun hxs xs' hxs' r r' h => by
    simp only [JSValue.allJSON, Bool.and_eq_true] at hxs
    obtain ⟨s, hs, hp⟩ := arrayParts_cons x hxs.1 t
    cases xs' with
    | nil =>
      obtain ⟨c, u, hc, htag⟩ := serialize_head x hxs.1 s hs
      rw [hp, joinComma_cons_append, hc] at h
      simp only [arrayParts, joinComma, List.nil_append, List.cons_append,
        List.cons.injEq] at h
      rw [h.1] at htag
      cases x <;> simp [JSValue.tag, charTag] at htag <;> simp [JSValue.isJSON] at hxs
    | cons x' t' =>
      simp only [JSValue.allJSON, Bool.and_eq_true] at hxs'
      obtain ⟨s', hs', hp'⟩ := arrayParts_cons x' hxs'.1 t'
      rw [hp, hp', joinComma_cons_append, joinComma_cons_append] at h
      have hrest : ∀ (l : List JSValue) (q : List Char),
          NoDigitHead (match arrayParts l with
            | [] => ']' :: q
            | p :: ps => ',' :: (joinComma (p :: ps) ++ ']' :: q)) := by
        intro l q
        cases arrayParts l with
        | nil => exact noDigitHead_cons _ (by decide)
        | cons p ps => exact noDigitHead_cons _ (by decide)
      obtain ⟨hx, htail⟩ := serialize_delimited x hxs.1 x' hxs'.1 s s' _ _ hs hs'
        (hrest t r) (hrest t' r') h
      cases t with
      | nil =>
        cases t' with
        | nil =>
          simp only [arrayParts, List.cons.injEq, true_and] at htail
          exact ⟨by rw [hx], htail⟩
        | cons y' u' =>
          simp only [JSValue.allJSON, Bool.and_eq_true] at hxs'
          obtain ⟨_, _, hq'⟩ := arrayParts_cons y' hxs'.2.1 u'
          rw [hq'] at htail
          simp [arrayParts] at htail
      | cons y u =>
        obtain ⟨_, _, hq⟩ := arrayParts_cons y (by
          simp only [JSValue.allJSON, Bool.and_eq_true] at hxs; exact hxs.2.1) u
        cases t' with
        | nil =>
          rw [hq] at htail
          simp [arrayParts] at htail
        | cons y' u' =>
          obtain ⟨_, _, hq'⟩ := arrayParts_cons y' (by
            simp only [JSValue.allJSON, Bool.and_eq_true] at hxs'; exact hxs'.2.1) u'
          have htail2 : joinComma (arrayParts (y :: u)) ++ ']' :: r =
              joinComma (arrayParts (y' :: u')) ++ ']' :: r' := by
            rw [hq, hq'] at htail
            simp only [List.cons.injEq, true_and] at htail
            rw [hq, hq']
            exact htail
          obtain ⟨ht, hr⟩ := arrayParts_delimited (y :: u) hxs.2 (y' :: u') hxs'.2 r r'
            htail2
          exact ⟨by rw [hx, ht], hr⟩
theorem objectParts_delimited : ∀ (ps : List (String × JSValue)),
    JSValue.allJSONProps ps = true → ∀ (ps' : List (String × JSValue)),
    JSValue.allJSONProps ps' = true → ∀ (r r' : List Char),
    joinComma (objectParts ps) ++ '}' :: r = joinComma (objectParts ps') ++ '}' :: r' →
    ps = ps' ∧ r = r'
  | [] => fun _ ps' hps' r r' h => by
    cases ps' with
    | nil => simpa [objectParts, joinComma] using h
    | cons kv' t' =>
      obtain ⟨k', x'⟩ := kv'
      simp only [JSValue.allJSONProps, Bool.and_eq_true] at hps'
      obtain ⟨s', hs', hp'⟩ := objectParts_cons k' x' hps'.1 t'
      rw [hp', joinComma_cons_append] at h
      simp [objectParts, joinComma, QuoteJSONString] at h
  | (k, x) :: t => fun hps ps' hps' r r' h => by
    simp only [JSValue.allJSONProps, Bool.and_eq_true] at hps
    obtain ⟨s, hs, hp⟩ := objectParts_cons k x hps.1 t
    cases ps' with
    | nil =>
      rw [hp, joinComma_cons_append] at h
      simp [objectParts, joinComma, QuoteJSONString] at h
    | cons kv' t' =>
      obtain ⟨k', x'⟩ := kv'
      simp only [JSValue.allJSONProps, Bool.and_eq_true] at hps'
      obtain ⟨s', hs', hp'⟩ := objectParts_cons k' x' hps'.1 t'
      rw [hp, hp', joinComma_cons_append, joinComma_cons_append] at h
      simp only [List.append_assoc] at h
      obtain ⟨hk, h⟩ := QuoteJSONString_delimited k k' _ _ h
      simp only [List.cons_append, List.cons.injEq, true_and] at h
      have hrest : ∀ (l : List (String × JSValue)) (q : List Char),
          NoDigitHead (match objectParts l with
            | [] => '}' :: q
            | p :: ps => ',' :: (joinComma (p :: ps) ++ '}' :: q)) := by
        intro l q
        cases objectParts l with
        | nil => exact noDigitHead_cons _ (by decide)
        | cons p ps => exact noDigitHead_cons _ (by decide)
      obtain ⟨hx, htail⟩ := serialize_delimited x hps.1 x' hps'.1 s s' _ _ hs hs'
        (hrest t r) (hrest t' r') h
      cases t with
      | nil =>
        cases t' with
        | nil =>
          simp only [objectParts, List.cons.injEq, true_and] at htail
          exact ⟨by rw [hk, hx], htail⟩
        | cons kv2 u' =>
          obtain ⟨k2, y'⟩ := kv2
          simp only [JSValue.allJSONProps, Bool.and_eq_true] at hps'
          obtain ⟨_, _, hq'⟩ := objectParts_cons k2 y' hps'.2.1 u'
          rw [hq'] at htail
          simp [objectParts] at htail
      | cons kv1 u =>
        obtain ⟨k1, y⟩ := kv1
        obtain ⟨_, _, hq⟩ := objectParts_cons k1 y (by
          simp only [JSValue.allJSONProps, Bool.and_eq_true] at hps; exact hps.2.1) u
        cases t' with
        | nil =>
          rw [hq] at htail
          simp [objectParts] at htail
        | cons kv2 u' =>
          obtain ⟨k2, y'⟩ := kv2
          obtain ⟨_, _, hq'⟩ := objectParts_cons k2 y' (by
            simp only [JSValue.allJSONProps, Bool.and_eq_true] at hps'; exact hps'.2.1) u'
          have htail2 : joinComma (objectParts ((k1, y) :: u)) ++ '}' :: r =
              joinComma (objectParts ((k2, y') :: u')) ++ '}' :: r' := by
            rw [hq, hq'] at htail
            simp only [List.cons.injEq, true_and] at htail
            rw [hq, hq']
            exact htail
          obtain ⟨ht, hr⟩ := objectParts_delimited ((k1, y) :: u) hps.2 ((k2, y') :: u')
            hps'.2 r r' htail2
          exact ⟨by rw [hk, hx, ht], hr⟩
end

/-! ## Cache keys -/

/-- `SerializeJSONObject` is injective on objects of JSON data. -/
theorem SerializeJSONObject_injective (ps ps' : List (String × JSValue))
    (hps : JSValue.allJSONProps ps = true) (hps' : JSValue.allJSONProps ps' = true)
    (h : SerializeJSONObject ps = SerializeJSONObject ps') : ps = ps' := by
  have h := congrArg String.data h
  simp only [SerializeJSONObject, List.cons.injEq, true_and] at h
  exact (objectParts_delimited ps hps ps' hps' [] [] h).1

/-- `JSON.stringify` is injective on JSON data. -/
theorem JSON_stringify_injective (v v' : JSValue) (hv : v.isJSON = true)
    (hv' : v'.isJSON = true) (h : JSON_stringify v = JSON_stringify v') : v = v' := by
  obtain ⟨s, hs⟩ := serialize_isSome v hv
  obtain ⟨s', hs'⟩ := serialize_isSome v' hv'
  simp only [JSON_stringify, hs, hs', JSValue.str.injEq] at h
  have h := congrArg String.data h
  exact (serialize_delimited v hv v' hv' s s' [] [] hs hs' noDigitHead_nil
    noDigitHead_nil (by simpa using h)).1

theorem objectParts_append (a b : List (String × JSValue)) :
    objectParts (a ++ b) = objectParts a ++ objectParts b := by
  induction a with
  | nil => simp [objectParts]
  | cons kv t ih =>
    obtain ⟨k, v⟩ := kv
    cases hs : SerializeJSONProperty v <;> simp [objectParts, hs, ih]

theorem joinComma_cons_of_ne_nil (p : List Char) (l : List (List Char)) (hl : l ≠ []) :
    joinComma (p :: l) = p ++ ',' :: joinComma l := by
  cases l with
  | nil => exact absurd rfl hl
  | cons q qs => rfl

/-- The last of the strings joined by commas can be read back when it is a
property whose value is a quoted string. -/
theorem joinComma_last_delimited (parts : List (List Char)) (k f f' : String)
    (h : joinComma (parts ++ [QuoteJSONString k ++ ':' :: QuoteJSONString f]) ++ ['}'] =
      joinComma (parts ++ [QuoteJSONString k ++ ':' :: QuoteJSONString f']) ++ ['}']) :
    f = f' := by
  induction parts with
  | nil =>
    simp only [List.nil_append, joinComma, List.append_assoc] at h
    have h1 := (QuoteJSONString_delimited _ _ _ _ h).2
    simp only [List.cons_append, List.cons.injEq, true_and] at h1
    exact (QuoteJSONString_delimited f f' _ _ h1).1
  | cons p t ih =>
    rw [List.cons_append, List.cons_append, joinComma_cons_of_ne_nil p _ (by simp),
      joinComma_cons_of_ne_nil p _ (by simp)] at h
    simp only [List.append_assoc, List.cons_append, List.append_cancel_left_eq,
      List.cons.injEq, true_and] at h
    exact ih (by simpa using h)

/-- The key of an object whose last property is the fingerprint tells the
fingerprint, whatever the earlier properties are. -/
theorem fingerprint_of_key (ps : List (String × JSValue)) (f f' : String)
    (h : SerializeJSONObject (ps ++ [("extra_cache_keys", .str f)]) =
      SerializeJSONObject (ps ++ [("extra_cache_keys", .str f')])) : f = f' := by
  have h := congrArg String.data h
  simp only [SerializeJSONObject, List.cons.injEq, true_and, objectParts_append] at h
  simp only [objectParts, SerializeJSONProperty] at h
  exact joinComma_last_delimited _ _ f f' h


namespace CachedOctokit

/-- C3 as stated fails: `JSON.stringify` accepts a mapping with a parameter
whose value is `undefined` and leaves that parameter out, so the options
`{role: "admin"}` and the same options with the additional parameter
`page: undefined` give the same key, in `request_cached` and in
`graphql_cached`. -/
theorem undefined_parameter_leaves_key_unchanged :
    JSValue.obj [("role", .str "admin")] ≠
      JSValue.obj ([("role", .str "admin")] ++ [("page", .undefined)]) ∧
    request_cache_key "GET /orgs/acme/members" (.obj [("role", .str "admin")])
        (.str "[]") =
      request_cache_key "GET /orgs/acme/members"
        (.obj ([("role", .str "admin")] ++ [("page", .undefined)])) (.str "[]") ∧
    graphql_cache_key "q" (.obj [("role", .str "admin")]) (.str "[]") =
      graphql_cache_key "q"
        (.obj ([("role", .str "admin")] ++ [("page", .undefined)])) (.str "[]") := by
  refine ⟨?_, rfl, rfl⟩
  intro h
  have hlen := congrArg List.length (JSValue.obj.inj h)
  simp at hlen

/-- C3, amended to JSON data: for a query or route, a parameter or option value
that is JSON data (`null`, booleans, safe integers, strings, arrays and objects
of these, with no `undefined` and no function anywhere), and a fingerprint
string, the key of `graphql_cached` (and likewise of `request_cached`) is the
same for two triples exactly when the triples are equal; in particular a
parameter mapping and the same mapping with one more parameter whose value is
JSON data give different keys. -/
theorem cache_key_injective (identity identity' : String)
    (parameters parameters' : JSValue) (fingerprint fingerprint' : String)
    (hp : parameters.isJSON = true) (hp' : parameters'.isJSON = true) :
    (graphql_cache_key identity parameters (.str fingerprint) =
        graphql_cache_key identity' parameters' (.str fingerprint') ↔
      identity = identity' ∧ parameters = parameters' ∧ fingerprint = fingerprint') ∧
    (request_cache_key identity parameters (.str fingerprint) =
        request_cache_key identity' parameters' (.str fingerprint') ↔
      identity = identity' ∧ parameters = parameters' ∧ fingerprint = fingerprint') ∧
    (∀ (ps : List (String × JSValue)) (k : String) (v : JSValue),
      JSValue.allJSONProps (ps ++ [(k, v)]) = true →
        graphql_cache_key identity (.obj ps) (.str fingerprint) ≠
          graphql_cache_key identity (.obj (ps ++ [(k, v)])) (.str fingerprint) ∧
        request_cache_key identity (.obj ps) (.str fingerprint) ≠
          request_cache_key identity (.obj (ps ++ [(k, v)])) (.str fingerprint)) := by
  have key : ∀ (name1 name2 : String) (q q' : String) (p p' : JSValue) (f f' : String),
      p.isJSON = true → p'.isJSON = true →
      SerializeJSONObject [(name1, .str q), (name2, p), ("extra_cache_keys", .str f)] =
        SerializeJSONObject
          [(name1, .str q'), (name2, p'), ("extra_cache_keys", .str f')] →
      q = q' ∧ p = p' ∧ f = f' := by
    intro name1 name2 q q' p p' f f' hj hj' h
    have hl := SerializeJSONObject_injective _ _
      (by simp [JSValue.allJSONProps, JSValue.isJSON, hj])
      (by simp [JSValue.allJSONProps, JSValue.isJSON, hj']) h
    simp only [List.cons.injEq, Prod.mk.injEq, true_and, JSValue.str.injEq,
      and_true] at hl
    exact ⟨hl.1, hl.2.1, hl.2.2⟩
  refine ⟨⟨key _ _ _ _ _ _ _ _ hp hp', ?_⟩, ⟨key _ _ _ _ _ _ _ _ hp hp', ?_⟩, ?_⟩
  · rintro ⟨rfl, rfl, rfl⟩; rfl
  · rintro ⟨rfl, rfl, rfl⟩; rfl
  · intro ps k v hall
    have hps : JSValue.allJSONProps ps = true := by
      clear key
      induction ps with
      | nil => rfl
      | cons kv t ih =>
        obtain ⟨k1, v1⟩ := kv
        simp only [List.cons_append, JSValue.allJSONProps, Bool.and_eq_true] at hall ⊢
        exact ⟨hall.1, ih hall.2⟩
    have hne : JSValue.obj ps ≠ JSValue.obj (ps ++ [(k, v)]) := by
      intro h
      have hlen := congrArg List.length (JSValue.obj.inj h)
      simp at hlen
    constructor
    · intro h
      exact hne (key _ _ _ _ _ _ _ _ (by simpa [JSValue.isJSON] using hps)
        (by simpa [JSValue.isJSON] using hall) h).2.1
    · intro h
      exact hne (key _ _ _ _ _ _ _ _ (by simpa [JSValue.isJSON] using hps)
        (by simpa [JSValue.isJSON] using hall) h).2.1

/-- C3 amended, at the call of `get_repository_admins`: the options of the
scenario and the same options with `page: 2` added give different keys. -/
theorem cache_key_injective_witness :
    scenarioOptions.isJSON = true ∧
    request_cache_key "GET /orgs/acme/members" scenarioOptions (.str "[]") ≠
      request_cache_key "GET /orgs/acme/members"
        (.obj ([("role", .str "admin"), ("per_page", .num 100)] ++ [("page", .num 2)]))
        (.str "[]") :=
  ⟨rfl, ((cache_key_injective "GET /orgs/acme/members" "GET /orgs/acme/members"
    scenarioOptions scenarioOptions "[]" "[]" rfl rfl).2.2
    [("role", .str "admin"), ("per_page", .num 100)] "page" (.num 2) rfl).2⟩

/-- The constructor on options that `super` accepts. -/
theorem constructor_of_accepted {σ κ : Type} (E : Collaborators σ κ) (cache : σ)
    (api : κ) (octokit_options rewritten : JSValue)
    (h : E.octokit_constructor octokit_options = .ok rewritten) :
    constructor E cache api octokit_options = .ok (fresh cache api rewritten) := by
  simp [constructor, h]

/-- The constructor on options that `super` refuses. -/
theorem constructor_of_refused {σ κ : Type} (E : Collaborators σ κ) (cache : σ)
    (api : κ) (octokit_options : JSValue) (e : JSError)
    (h : E.octokit_constructor octokit_options = .error e) :
    constructor E cache api octokit_options = .error e := by
  simp [constructor, h]

/-- The gateways of the scenarios are what the constructor builds: for the
configuration `{auth: "tok1"}` of the specification, and for the configuration
`{auth: token, log: console}` of `run`, whose logger already has its four
functions. -/
theorem scenario_gateways_constructed (response : JSValue) :
    constructor memoryCollaborators ⟨[], none⟩ [.ok response, .ok response]
        (.obj [("auth", .str "tok1")]) = .ok (scenarioGateway response) ∧
    Except.map (fun g => g.extra_cache_keys)
        (constructor memoryCollaborators (⟨[], none⟩ : MemoryStore) [.ok response]
          (.obj [("auth", .str "xxx"),
            ("log", .obj [("log", .func "log"), ("debug", .func "debug"),
              ("info", .func "info"), ("warn", .func "warn"),
              ("error", .func "error")])])) =
      .ok (JSON_stringify (.obj [("auth", .str "xxx"), ("log", .obj [])])) :=
  ⟨rfl, rfl⟩

/-- C6 as stated fails: an absent configuration and the empty list have the
same fingerprint `[]`, so the two gateways compute the same key and the second
one is served the entry the first one wrote to the shared store; two
configurations that differ only in their logging target, `log: {debug: 0}` and
`log: {debug: 2}`, have the same fingerprint as well, because `super` has
replaced both `debug` properties by functions before the options are
serialised. -/
theorem absent_configuration_shares_fingerprint :
    JSValue.undefined ≠ JSValue.arr [] ∧
    constructor memoryCollaborators ⟨[], none⟩ [.ok scenarioResponse] .undefined =
      .ok (fresh ⟨[], none⟩ [.ok scenarioResponse] .undefined) ∧
    (∀ cache : MemoryStore,
      constructor memoryCollaborators cache [] (.arr []) =
        .ok (fresh cache [] (.arr []))) ∧
    (fresh (⟨[], none⟩ : MemoryStore) ([] : List (Except JSError JSValue))
        .undefined).extra_cache_keys =
      (fresh (⟨[], none⟩ : MemoryStore) ([] : List (Except JSError JSValue))
        (.arr [])).extra_cache_keys ∧
    (request_cached memoryCollaborators "GET /user" (.obj []) .undefined
        (fresh
          (request_cached memoryCollaborators "GET /user" (.obj []) .undefined
            (fresh ⟨[], none⟩ [.ok scenarioResponse] .undefined)).2.cache
          [] (.arr []))).1 = .ok scenarioResponse ∧
    (request_cached memoryCollaborators "GET /user" (.obj []) .undefined
        (fresh
          (request_cached memoryCollaborators "GET /user" (.obj []) .undefined
            (fresh ⟨[], none⟩ [.ok scenarioResponse] .undefined)).2.cache
          [] (.arr []))).2.liveCalls = 0 ∧
    JSValue.obj [("auth", .str "a"), ("log", .obj [("debug", .num 0)])] ≠
      JSValue.obj [("auth", .str "a"), ("log", .obj [("debug", .num 2)])] ∧
    Except.map (fun g => g.extra_cache_keys)
        (constructor memoryCollaborators (⟨[], none⟩ : MemoryStore) []
          (.obj [("auth", .str "a"), ("log", .obj [("debug", .num 0)])])) =
      .ok (JSON_stringify (.obj [("auth", .str "a"), ("log", .obj [])])) ∧
    Except.map (fun g => g.extra_cache_keys)
        (constructor memoryCollaborators (⟨[], none⟩ : MemoryStore) []
          (.obj [("auth", .str "a"), ("log", .obj [("debug", .num 2)])])) =
      .ok (JSON_stringify (.obj [("auth", .str "a"), ("log", .obj [])])) := by
  refine ⟨?_, rfl, fun _ => rfl, rfl, rfl, rfl, ?_, rfl, rfl⟩
  · intro h
    cases h
  · intro h
    have h1 := congrArg (fun v => propOf (propOf v "log") "debug") h
    simp only [propOf, ownProperty] at h1
    have h2 := JSValue.num.inj h1
    have h3 := congrArg SafeInteger.val h2
    revert h3
    decide

/-- C6, amended to configurations that `super` accepts and leaves as present
JSON data: when the inherited constructor returns normally on two
configurations and the two, as it left them, are truthy, are JSON data and
differ, both gateways are constructed, their fingerprints differ, hence for
every identical call they compute different keys, and an entry written under
the key of one is not what the in-memory store returns for the key of the
other. A configuration that `super` leaves falsy, the absent one included, has
the fingerprint of the empty list. -/
theorem fingerprint_scopes_configurations {σ κ : Type} (E : Collaborators σ κ)
    (cache1 cache2 : σ) (api1 api2 : κ) (c1 c2 r1 r2 : JSValue)
    (hsuper1 : E.octokit_constructor c1 = .ok r1)
    (hsuper2 : E.octokit_constructor c2 = .ok r2)
    (h1 : r1.ToBoolean = true) (h2 : r2.ToBoolean = true)
    (j1 : r1.isJSON = true) (j2 : r2.isJSON = true) (hne : r1 ≠ r2) :
    constructor E cache1 api1 c1 = .ok (fresh cache1 api1 r1) ∧
    constructor E cache2 api2 c2 = .ok (fresh cache2 api2 r2) ∧
    (fresh cache1 api1 r1).extra_cache_keys ≠ (fresh cache2 api2 r2).extra_cache_keys ∧
    (∀ (query : String) (parameters : JSValue),
      graphql_cache_key query parameters (fresh cache1 api1 r1).extra_cache_keys ≠
        graphql_cache_key query parameters (fresh cache2 api2 r2).extra_cache_keys) ∧
    (∀ (route : String) (options : JSValue),
      request_cache_key route options (fresh cache1 api1 r1).extra_cache_keys ≠
        request_cache_key route options (fresh cache2 api2 r2).extra_cache_keys) ∧
    (∀ (route : String) (options value ttl : JSValue)
        (entries : List (String × JSValue × JSValue)),
      MemoryStore.lookup
          ((request_cache_key route options (fresh cache1 api1 r1).extra_cache_keys,
            value, ttl) :: entries)
          (request_cache_key route options (fresh cache2 api2 r2).extra_cache_keys) =
        MemoryStore.lookup entries
          (request_cache_key route options (fresh cache2 api2 r2).extra_cache_keys)) ∧
    (∀ c r : JSValue, E.octokit_constructor c = .ok r → r.ToBoolean = false →
      constructor E cache1 api1 c = .ok (fresh cache1 api1 r) ∧
      (fresh cache1 api1 r).extra_cache_keys = JSON_stringify (.arr [])) := by
  obtain ⟨s1, hs1⟩ := serialize_isSome r1 j1
  obtain ⟨s2, hs2⟩ := serialize_isSome r2 j2
  have hf1 : (fresh cache1 api1 r1).extra_cache_keys = .str (String.mk s1) := by
    simp [fresh, JSValue.or, h1, JSON_stringify, hs1]
  have hf2 : (fresh cache2 api2 r2).extra_cache_keys = .str (String.mk s2) := by
    simp [fresh, JSValue.or, h2, JSON_stringify, hs2]
  have hs : String.mk s1 ≠ String.mk s2 := by
    intro h
    apply hne
    apply JSON_stringify_injective r1 r2 j1 j2
    simp [JSON_stringify, hs1, hs2, h]
  have hreq : ∀ (route : String) (options : JSValue),
      request_cache_key route options (fresh cache1 api1 r1).extra_cache_keys ≠
        request_cache_key route options (fresh cache2 api2 r2).extra_cache_keys := by
    intro route options h
    rw [hf1, hf2] at h
    exact hs (fingerprint_of_key [("route", .str route), ("options", options)] _ _ h)
  refine ⟨constructor_of_accepted E cache1 api1 c1 r1 hsuper1,
    constructor_of_accepted E cache2 api2 c2 r2 hsuper2, ?_, ?_, hreq, ?_, ?_⟩
  · rw [hf1, hf2]
    intro h
    exact hs (JSValue.str.inj h)
  · intro query parameters h
    rw [hf1, hf2] at h
    exact hs (fingerprint_of_key [("query", .str query), ("parameters", parameters)]
      _ _ h)
  · intro route options value ttl entries
    simp [MemoryStore.lookup, hreq route options]
  · intro c r hc hr
    exact ⟨constructor_of_accepted E cache1 api1 c r hc, by simp [fresh, JSValue.or, hr]⟩

/-- C6 amended, at the configurations `{auth: "tok1"}` and `{auth: "tok2"}`,
which the constructor of `Octokit` accepts and leaves as they are. -/
theorem fingerprint_scopes_configurations_witness :
    memoryCollaborators.octokit_constructor (.obj [("auth", .str "tok1")]) =
      .ok (.obj [("auth", .str "tok1")]) ∧
    (fresh (⟨[], none⟩ : MemoryStore) ([] : List (Except JSError JSValue))
        (.obj [("auth", .str "tok1")])).extra_cache_keys ≠
      (fresh (⟨[], none⟩ : MemoryStore) ([] : List (Except JSError JSValue))
        (.obj [("auth", .str "tok2")])).extra_cache_keys :=
  ⟨rfl, (fingerprint_scopes_configurations memoryCollaborators
    (⟨[], none⟩ : MemoryStore) ⟨[], none⟩
    ([] : List (Except JSError JSValue)) [] (.obj [("auth", .str "tok1")])
    (.obj [("auth", .str "tok2")]) (.obj [("auth", .str "tok1")])
    (.obj [("auth", .str "tok2")]) rfl rfl rfl rfl rfl rfl (by simp)).2.2.1⟩

end CachedOctokit

/-! ## What `get_stale_repos` returns -/

theorem except_bind_eq_ok {α β : Type} (x : Except JSError α) (f : α → Except JSError β)
    (b : β) (h : (x >>= f) = .ok b) : ∃ a, x = .ok a ∧ f a = .ok b := by
  cases x with
  | error e => cases h
  | ok a => exact ⟨a, rfl, h⟩

/-- The loop hands back the list `stale_repos` it was given. -/
theorem stale_repos_loop_result (repositories : List JSValue) :
    ∀ (stale_repos out : List JSValue),
      stale_repos_loop repositories stale_repos = .ok out → out = stale_repos := by
  induction repositories with
  | nil =>
    intro stale_repos out h
    simp only [stale_repos_loop, Except.ok.injEq] at h
    exact h.symm
  | cons r rest ih =>
    intro stale_repos out h
    simp only [stale_repos_loop] at h
    cases hr : stale_repo_of r with
    | error e => rw [hr] at h; cases h
    | ok v => rw [hr] at h; exact ih stale_repos out h

/-- Whatever the answer of the query, the list built from it is empty. -/
theorem stale_repos_of_graph_result (graph v : JSValue)
    (h : stale_repos_of_graph graph = .ok v) : v = .arr [] := by
  unfold stale_repos_of_graph at h
  obtain ⟨search, _, h⟩ := except_bind_eq_ok _ _ _ h
  obtain ⟨edges, _, h⟩ := except_bind_eq_ok _ _ _ h
  obtain ⟨repositories, _, h⟩ := except_bind_eq_ok _ _ _ h
  obtain ⟨items, _, h⟩ := except_bind_eq_ok _ _ _ h
  obtain ⟨out, hloop, h⟩ := except_bind_eq_ok _ _ _ h
  rw [stale_repos_loop_result items [] out hloop] at h
  cases h
  rfl

theorem get_stale_repos_result {σ κ : Type} (E : Collaborators σ κ)
    (stale_date org : String) (octokit octokit1 : CachedOctokit σ κ) (v : JSValue)
    (h : get_stale_repos E stale_date org octokit = (.ok v, octokit1)) : v = .arr [] := by
  unfold get_stale_repos at h
  split at h
  · cases h
  · split at h
    · cases h
    · split at h
      · cases h
      · rename_i graph g1 hq
        cases hg : stale_repos_of_graph graph with
        | error e => rw [hg] at h; cases h
        | ok r =>
          rw [hg] at h
          simp only [Prod.mk.injEq, Except.ok.injEq] at h
          rw [← h.1]
          exact stale_repos_of_graph_result graph r hg

theorem isObject_elim {v : JSValue} (h : isObject v = true) : ∃ ps, v = .obj ps := by
  cases v <;> simp [isObject] at h
  exact ⟨_, rfl⟩

theorem isString_elim {v : JSValue} (h : isString v = true) : ∃ s, v = .str s := by
  cases v <;> simp [isString] at h
  exact ⟨_, rfl⟩

theorem isFalse_elim {v : JSValue} (h : isFalse v = true) : v = .bool false := by
  cases v with
  | bool b => cases b <;> simp [isFalse] at h; rfl
  | _ => simp [isFalse] at h

theorem isArrayOf_elim {p : JSValue → Bool} {v : JSValue} (h : isArrayOf p v = true) :
    ∃ xs, v = .arr xs ∧ ∀ x ∈ xs, p x = true := by
  cases v <;> simp [isArrayOf] at h
  exact ⟨_, rfl, h⟩

theorem getProp_of_isObject {v : JSValue} (h : isObject v = true) (key : String) :
    getProp v key = .ok (propOf v key) := by
  obtain ⟨ps, rfl⟩ := isObject_elim h
  rfl

theorem mapExcept_ok (f : JSValue → Except JSError JSValue) (xs : List JSValue)
    (h : ∀ x ∈ xs, ∃ y, f x = .ok y) : ∃ ys, mapExcept f xs = .ok ys := by
  induction xs with
  | nil => exact ⟨[], rfl⟩
  | cons x rest ih =>
    obtain ⟨y, hy⟩ := h x (by simp)
    obtain ⟨ys, hys⟩ := ih (fun z hz => h z (by simp [hz]))
    exact ⟨y :: ys, by simp [mapExcept, hy, hys]⟩

theorem admin_of_collaborator_ok (c : JSValue) (h : wellFormedCollaborator c = true) :
    ∃ v, admin_of_collaborator c = .ok v := by
  simp only [wellFormedCollaborator, Bool.and_eq_true] at h
  simp only [admin_of_collaborator, getProp_of_isObject h.1, getProp_of_isObject h.2,
    bind, Except.bind, pure, Except.pure]
  exact ⟨_, rfl⟩

theorem except_bind_ok {α β : Type} {x : Except JSError α} {f : α → Except JSError β}
    {a : α} (hx : x = .ok a) (hf : ∃ v, f a = .ok v) : ∃ v, (x >>= f) = .ok v := by
  subst hx
  exact hf

/-- The body of the loop does not throw on a well-formed repository. -/
theorem stale_repo_of_ok (r : JSValue) (h : wellFormedRepository r = true) :
    ∃ v, stale_repo_of r = .ok v := by
  simp only [wellFormedRepository, Bool.and_eq_true, Bool.or_eq_true] at h
  obtain ⟨⟨⟨⟨⟨⟨hobj, harch⟩, hdis⟩, hname⟩, hdbr⟩, hcol⟩, hedges⟩ := h
  obtain ⟨name, hname⟩ := isString_elim hname
  obtain ⟨es, hes, hall⟩ := isArrayOf_elim hedges
  obtain ⟨admins, hadmins⟩ := mapExcept_ok admin_of_collaborator es
    (fun c hc => admin_of_collaborator_ok c (hall c hc))
  have hrel : ∃ v, latestRelease_createdAt (propOf r "latestRelease") = .ok v := by
    cases hl : propOf r "latestRelease" <;>
      simp [latestRelease_createdAt, JSValue.isNullish, getProp]
  obtain ⟨rel, hrel⟩ := hrel
  have hcommit : ∃ v, lastCommitters_of (propOf r "defaultBranchRef") = .ok v := by
    rcases hdbr with hn | ⟨⟨⟨h1, h2⟩, h3⟩, h4⟩
    · simp [lastCommitters_of, hn]
    · obtain ⟨ps, hps⟩ := isObject_elim h1
      have hnn : (propOf r "defaultBranchRef").isNullish = false := by
        rw [hps]; rfl
      obtain ⟨cs, hcs, hcall⟩ := isArrayOf_elim h4
      obtain ⟨ys, hys⟩ := mapExcept_ok (fun commit => getProp commit "author") cs
        (fun c hc => ⟨_, getProp_of_isObject (hcall c hc) "author"⟩)
      simp only [lastCommitters_of, hnn, getProp_of_isObject h1, getProp_of_isObject h2,
        getProp_of_isObject h3, bind, Except.bind, hcs, callMap, hys]
      exact ⟨_, rfl⟩
  obtain ⟨commits, hcommit⟩ := hcommit
  have htext : ToString (propOf r "name") = .ok name := by rw [hname]; rfl
  have harch1 : ∀ msg, assert_strictEqual_false (propOf r "isArchived") msg = .ok () := by
    intro msg; rw [isFalse_elim harch]; rfl
  have hdis1 : ∀ msg, assert_strictEqual_false (propOf r "isDisabled") msg = .ok () := by
    intro msg; rw [isFalse_elim hdis]; rfl
  have hiter : iterate (propOf (propOf r "collaborators") "edges") = .ok es := by
    rw [hes]; rfl
  unfold stale_repo_of
  refine except_bind_ok (getProp_of_isObject hobj _) ?_
  refine except_bind_ok (getProp_of_isObject hobj _) ?_
  refine except_bind_ok htext ?_
  refine except_bind_ok (harch1 _) ?_
  refine except_bind_ok (getProp_of_isObject hobj _) ?_
  refine except_bind_ok (getProp_of_isObject hobj _) ?_
  refine except_bind_ok htext ?_
  refine except_bind_ok (hdis1 _) ?_
  refine except_bind_ok (getProp_of_isObject hobj _) ?_
  refine except_bind_ok (getProp_of_isObject hobj _) ?_
  refine except_bind_ok (getProp_of_isObject hobj _) ?_
  refine except_bind_ok (getProp_of_isObject hobj _) ?_
  refine except_bind_ok (getProp_of_isObject hobj _) ?_
  refine except_bind_ok hrel ?_
  refine except_bind_ok (getProp_of_isObject hobj _) ?_
  refine except_bind_ok hcommit ?_
  refine except_bind_ok (getProp_of_isObject hobj _) ?_
  refine except_bind_ok (getProp_of_isObject hcol _) ?_
  refine except_bind_ok hiter ?_
  refine except_bind_ok hadmins ?_
  exact ⟨_, rfl⟩

/-- The loop runs to its end on well-formed repositories. -/
theorem stale_repos_loop_ok (repositories : List JSValue)
    (h : ∀ r ∈ repositories, wellFormedRepository r = true) (stale_repos : List JSValue) :
    stale_repos_loop repositories stale_repos = .ok stale_repos := by
  induction repositories with
  | nil => rfl
  | cons r rest ih =>
    obtain ⟨v, hv⟩ := stale_repo_of_ok r (h r (by simp))
    simp only [stale_repos_loop, hv]
    exact ih (fun x hx => h x (by simp [hx]))

theorem mapExcept_node (edges : List JSValue)
    (h : ∀ e ∈ edges, isObject e = true) :
    mapExcept (fun edge => getProp edge "node") edges =
      .ok (edges.map (fun edge => propOf edge "node")) := by
  induction edges with
  | nil => rfl
  | cons e rest ih =>
    simp only [mapExcept, getProp_of_isObject (h e (by simp)),
      ih (fun x hx => h x (by simp [hx])), List.map]

/-- A well-formed answer of the query is processed without a throw, and the
list built from it is empty. -/
theorem stale_repos_of_graph_ok (graph : JSValue) (h : wellFormedGraph graph = true) :
    stale_repos_of_graph graph = .ok (.arr []) := by
  simp only [wellFormedGraph, Bool.and_eq_true] at h
  obtain ⟨⟨hobj, hsearch⟩, hedges⟩ := h
  obtain ⟨es, hes, hall⟩ := isArrayOf_elim hedges
  have hall1 : ∀ e ∈ es, isObject e = true := fun e he => by
    have := hall e he
    simp only [Bool.and_eq_true] at this
    exact this.1
  have hall2 : ∀ r ∈ es.map (fun edge => propOf edge "node"),
      wellFormedRepository r = true := by
    intro r hr
    obtain ⟨e, he, rfl⟩ := List.mem_map.1 hr
    have := hall e he
    simp only [Bool.and_eq_true] at this
    exact this.2
  simp only [stale_repos_of_graph, getProp_of_isObject hobj,
    getProp_of_isObject hsearch, hes, callMap, mapExcept_node es hall1, iterate,
    stale_repos_loop_ok _ hall2, bind, Except.bind, pure, Except.pure]

/-- C10 (`get_stale_repos` returns the empty list): whenever `get_stale_repos`
returns normally, for any organisation name, date, store, client and answer of
the query, what it returns is the empty list; and it does return normally, with
the empty list, for a valid organisation name and date when the cached query
answers a well-formed graph of any number of repositories, none archived or
disabled. -/
theorem get_stale_repos_returns_empty {σ κ : Type} (E : Collaborators σ κ)
    (stale_date org : String) (octokit : CachedOctokit σ κ) :
    (∀ (v : JSValue) (octokit1 : CachedOctokit σ κ),
      get_stale_repos E stale_date org octokit = (.ok v, octokit1) → v = .arr []) ∧
    (∀ (graph : JSValue) (octokit1 : CachedOctokit σ κ),
      matchesOrgName org = true → matchesStaleDate stale_date = true →
      CachedOctokit.graphql_cached E graphql_query
          (stale_repos_parameters stale_date org) .undefined octokit
        = (.ok graph, octokit1) →
      wellFormedGraph graph = true →
        get_stale_repos E stale_date org octokit = (.ok (.arr []), octokit1)) := by
  refine ⟨fun v octokit1 h => get_stale_repos_result E stale_date org octokit octokit1 v h,
    ?_⟩
  intro graph octokit1 horg hdate hq hwf
  simp only [get_stale_repos, horg, hdate, hq, stale_repos_of_graph_ok graph hwf,
    Bool.not_true, Bool.false_eq_true, if_false]

/-- C10 at the call of `run`: organisation `SoftwareDefinedVehicle`, an empty
store and a live client that answers a graph with two stale repositories. -/
theorem get_stale_repos_returns_empty_witness :
    wellFormedGraph exampleGraph = true ∧
    (get_stale_repos memoryCollaborators "2025-11-04" "SoftwareDefinedVehicle"
        (CachedOctokit.fresh ⟨[], none⟩ [.ok exampleGraph]
          (.obj [("auth", .str "xxx"), ("log", .obj [("log", .func "log")])]))).1
      = .ok (.arr []) :=
  ⟨rfl, congrArg Prod.fst
    ((get_stale_repos_returns_empty memoryCollaborators "2025-11-04"
      "SoftwareDefinedVehicle"
      (CachedOctokit.fresh ⟨[], none⟩ [.ok exampleGraph]
        (.obj [("auth", .str "xxx"), ("log", .obj [("log", .func "log")])]))).2
      exampleGraph
      (CachedOctokit.graphql_cached memoryCollaborators graphql_query
        (stale_repos_parameters "2025-11-04" "SoftwareDefinedVehicle") .undefined
        (CachedOctokit.fresh ⟨[], none⟩ [.ok exampleGraph]
          (.obj [("auth", .str "xxx"), ("log", .obj [("log", .func "log")])]))).2
      rfl rfl rfl rfl)⟩

end CloseStaleRepos
